import Mathlib

/-!
Verification of the DevFlow bridge layer (framed RPC codec, stdio and TCP
transport clients, and the connection supervisor), shallowly embedded from
`src/ui/src-tauri/src/bridge/{rpc.rs, tcp.rs, sidecar.rs}`.

The JSON values the codec carries are modelled with integer numbers
(`serde_json` numbers may also be floats; floating point is outside the
scope of this model) and the serializer mirrors `serde_json::to_string`:
compact output, field order = declaration order, strings escaped with the
short escapes `\" \\ \b \t \n \f \r` and `\u00XX` for the remaining
control characters. The parser is a total, fuel-indexed recursive-descent
parser for that grammar (compact one-line documents, as the bridge frames
them, with leading or trailing whitespace tolerated as `serde_json::from_str`
tolerates the trailing newline of a framed line).
-/

namespace Devflow

/-- A JSON value as carried over the bridge channel. Numbers are modelled
as integers (ids are `u64`, error codes `i64`; floats are out of scope). -/
inductive Json where
  | null
  | bool (b : Bool)
  | num (n : Int)
  | str (s : String)
  | arr (items : List Json)
  | obj (members : List (String × Json))

/-! ### Rendering (`serde_json::to_string`) -/

/-- Lower-case hexadecimal digit, as `serde_json` emits in `\u00XX`. -/
def hexDig (n : Nat) : Char :=
  Char.ofNat (if n < 10 then 48 + n else 87 + n)

/-- One character of a string literal, escaped exactly as `serde_json`
escapes it: the short escapes, `\u00XX` for other control characters,
everything else verbatim. -/
def escapeChar (c : Char) : List Char :=
  if c = '"' then ['\\', '"']
  else if c = '\\' then ['\\', '\\']
  else if c = '\x08' then ['\\', 'b']
  else if c = '\t' then ['\\', 't']
  else if c = '\n' then ['\\', 'n']
  else if c = '\x0c' then ['\\', 'f']
  else if c = '\r' then ['\\', 'r']
  else if c.toNat < 32 then
    ['\\', 'u', '0', '0', hexDig (c.toNat / 16), hexDig (c.toNat % 16)]
  else [c]

/-- The escaped body of a string literal (no surrounding quotes). -/
def strBody (s : String) : List Char := s.toList.flatMap escapeChar

/-- The characters of a fixed keyword. -/
def litChars (s : String) : List Char := s.data

/-- The decimal digit character for `d < 10`. -/
def dChar (d : Nat) : Char := Char.ofNat (48 + d)

/-- Decimal digit characters of `n`, most significant first. -/
def digitsOf (n : Nat) : List Char := ((Nat.digits 10 n).reverse).map dChar

/-- Decimal rendering of a natural number (`0` renders as `"0"`). -/
def renderNat (n : Nat) : List Char := if n = 0 then ['0'] else digitsOf n

/-- Decimal rendering of an integer, optional leading minus sign. -/
def renderInt (i : Int) : List Char :=
  if i < 0 then '-' :: renderNat i.natAbs else renderNat i.natAbs

mutual

/-- Compact rendering of a JSON value, mirroring `serde_json::to_string`. -/
def Json.render : Json → List Char
  | .null => litChars "null"
  | .bool b => litChars (if b then "true" else "false")
  | .num i => renderInt i
  | .str s => '"' :: (strBody s ++ ['"'])
  | .arr items => '[' :: (renderArr items ++ [']'])
  | .obj members => '{' :: (renderObj members ++ ['}'])

/-- Comma-separated rendering of array items. -/
def renderArr : List Json → List Char
  | [] => []
  | [x] => x.render
  | x :: y :: rest => x.render ++ ',' :: renderArr (y :: rest)

/-- Comma-separated rendering of object members (`"key":value`). -/
def renderObj : List (String × Json) → List Char
  | [] => []
  | [(k, v)] => '"' :: (strBody k ++ '"' :: ':' :: v.render)
  | (k, v) :: m :: rest =>
      ('"' :: (strBody k ++ '"' :: ':' :: v.render)) ++ ',' :: renderObj (m :: rest)

end

/-- String-level rendering of a JSON value. -/
def Json.renderStr (j : Json) : String := ⟨j.render⟩

/-! ### Parsing (`serde_json::from_str`, restricted to the grammar above) -/

/-- Is `c` a decimal digit? -/
def isDig (c : Char) : Bool := 48 ≤ c.toNat && c.toNat ≤ 57

/-- Numeric value of a decimal digit character. -/
def digVal (c : Char) : Nat := c.toNat - 48

/-- Split a leading run of decimal digits off the input. -/
def grabDigits : List Char → List Char × List Char
  | [] => ([], [])
  | c :: cs =>
      if isDig c then
        let p := grabDigits cs
        (c :: p.1, p.2)
      else ([], c :: cs)

/-- The natural number denoted by a digit run, most significant first. -/
def natOfDigits (ds : List Char) : Nat := ds.foldl (fun a c => 10 * a + digVal c) 0

/-- Value of a hexadecimal digit character, if it is one. -/
def hexValOf (c : Char) : Option Nat :=
  if 48 ≤ c.toNat ∧ c.toNat ≤ 57 then some (c.toNat - 48)
  else if 97 ≤ c.toNat ∧ c.toNat ≤ 102 then some (c.toNat - 87)
  else if 65 ≤ c.toNat ∧ c.toNat ≤ 70 then some (c.toNat - 55)
  else none

/-- The character with scalar value `v`, if `v` is a Unicode scalar value
(surrogate-pair decoding of `\uXXXX` escapes is not modelled). -/
def mkScalar (v : Nat) : Option Char :=
  if v < 55296 ∨ (57344 ≤ v ∧ v < 1114112) then some (Char.ofNat v) else none

/-- The unescaped character of a one-letter escape sequence. -/
def unesc (e : Char) : Option Char :=
  if e = '"' then some '"'
  else if e = '\\' then some '\\'
  else if e = '/' then some '/'
  else if e = 'b' then some '\x08'
  else if e = 'f' then some '\x0c'
  else if e = 'n' then some '\n'
  else if e = 'r' then some '\r'
  else if e = 't' then some '\t'
  else none

/-- Scan a string literal body after the opening quote, undoing escapes,
up to and including the closing quote. Rejects raw control characters,
as `serde_json` does. -/
def scanStr : List Char → Option (List Char × List Char)
  | [] => none
  | '"' :: cs => some ([], cs)
  | '\\' :: 'u' :: a :: b :: x :: y :: r2 =>
      (match hexValOf a, hexValOf b, hexValOf x, hexValOf y with
       | some va, some vb, some vx, some vy =>
           (match mkScalar (((va * 16 + vb) * 16 + vx) * 16 + vy) with
            | some ch => (scanStr r2).map fun p => (ch :: p.1, p.2)
            | none => none)
       | _, _, _, _ => none)
  | '\\' :: e :: r =>
      (match unesc e with
       | some ch => (scanStr r).map fun p => (ch :: p.1, p.2)
       | none => none)
  | ['\\'] => none
  | c :: cs => if c.toNat < 32 then none else (scanStr cs).map fun p => (c :: p.1, p.2)

mutual

/-- Parse one JSON value. The fuel argument only bounds recursion depth;
any fuel above the input length is enough. -/
def parseVal : Nat → List Char → Option (Json × List Char)
  | 0, _ => none
  | _ + 1, [] => none
  | fuel + 1, c :: cs =>
      if c = 'n' then
        match cs with
        | 'u' :: 'l' :: 'l' :: r => some (.null, r)
        | _ => none
      else if c = 't' then
        match cs with
        | 'r' :: 'u' :: 'e' :: r => some (.bool true, r)
        | _ => none
      else if c = 'f' then
        match cs with
        | 'a' :: 'l' :: 's' :: 'e' :: r => some (.bool false, r)
        | _ => none
      else if c = '"' then
        (scanStr cs).map fun p => (.str ⟨p.1⟩, p.2)
      else if c = '[' then
        match cs with
        | ']' :: r => some (.arr [], r)
        | _ => (parseItems fuel cs).map fun p => (.arr p.1, p.2)
      else if c = '{' then
        match cs with
        | '}' :: r => some (.obj [], r)
        | _ => (parseMembers fuel cs).map fun p => (.obj p.1, p.2)
      else if c = '-' then
        match grabDigits cs with
        | ([], _) => none
        | (d :: ds, r) => some (.num (-(natOfDigits (d :: ds) : Int)), r)
      else if isDig c then
        let p := grabDigits (c :: cs)
        some (.num (natOfDigits p.1 : Int), p.2)
      else none

/-- Parse one or more comma-separated array items and the closing `]`. -/
def parseItems : Nat → List Char → Option (List Json × List Char)
  | 0, _ => none
  | fuel + 1, cs =>
      match parseVal fuel cs with
      | none => none
      | some (v, r) =>
          match r with
          | ']' :: r2 => some ([v], r2)
          | ',' :: r2 => (parseItems fuel r2).map fun p => (v :: p.1, p.2)
          | _ => none

/-- Parse one or more comma-separated object members and the closing `}`. -/
def parseMembers : Nat → List Char → Option (List (String × Json) × List Char)
  | 0, _ => none
  | fuel + 1, cs =>
      match cs with
      | '"' :: r0 =>
          match scanStr r0 with
          | none => none
          | some (k, r1) =>
              match r1 with
              | ':' :: r2 =>
                  match parseVal fuel r2 with
                  | none => none
                  | some (v, r3) =>
                      match r3 with
                      | '}' :: r4 => some ([(⟨k⟩, v)], r4)
                      | ',' :: r4 => (parseMembers fuel r4).map fun p => ((⟨k⟩, v) :: p.1, p.2)
                      | _ => none
              | _ => none
      | _ => none

end

/-- Is `c` JSON whitespace? -/
def isWsChar (c : Char) : Bool := c = ' ' || c = '\t' || c = '\n' || c = '\r'

/-- Parse a complete document: one value, with leading and trailing
whitespace tolerated (a framed line carries a trailing newline), and
nothing else (`serde_json::from_str` rejects trailing garbage). -/
def Json.parse (s : String) : Option Json :=
  let cs := s.toList.dropWhile isWsChar
  match parseVal (cs.length + 1) cs with
  | some (j, r) => if r.dropWhile isWsChar = [] then some j else none
  | none => none

/-! ### Codec round-trip: digit lemmas -/

/-- A remainder that cannot extend a rendered number: empty, or headed by a
non-digit. Every delimiter the renderer emits after a value qualifies. -/
def headSafe : List Char → Bool
  | [] => true
  | c :: _ => !isDig c

theorem digVal_dChar {d : Nat} (h : d < 10) : digVal (dChar d) = d := by
  interval_cases d <;> decide

theorem isDig_dChar {d : Nat} (h : d < 10) : isDig (dChar d) = true := by
  interval_cases d <;> decide

theorem foldr_ofDigits (l : List Nat) :
    l.foldr (fun d y => 10 * y + d) 0 = Nat.ofDigits 10 l := by
  induction l with
  | nil => simp [Nat.ofDigits]
  | cons d l ih => simp [Nat.ofDigits_cons, ih]; ring

theorem natOfDigits_map_dChar (l : List Nat) (h : ∀ d ∈ l, d < 10) :
    natOfDigits ((l.reverse).map dChar) = Nat.ofDigits 10 l := by
  rw [natOfDigits, List.map_reverse, List.foldl_reverse, List.foldr_map]
  rw [← foldr_ofDigits l]
  induction l with
  | nil => rfl
  | cons d l ih =>
      simp only [List.foldr_cons]
      rw [ih (fun x hx => h x (List.mem_cons_of_mem _ hx)),
        digVal_dChar (h d (List.mem_cons_self _ _))]

theorem natOfDigits_renderNat (n : Nat) : natOfDigits (renderNat n) = n := by
  by_cases h : n = 0
  · subst h; decide
  · rw [renderNat, if_neg h, digitsOf,
      natOfDigits_map_dChar _ (fun d hd => Nat.digits_lt_base (by norm_num) hd),
      Nat.ofDigits_digits]

theorem renderNat_digits (n : Nat) : ∀ c ∈ renderNat n, isDig c = true := by
  by_cases h : n = 0
  · subst h; decide
  · rw [renderNat, if_neg h, digitsOf]
    intro c hc
    obtain ⟨d, hd, rfl⟩ := List.mem_map.mp hc
    exact isDig_dChar (Nat.digits_lt_base (by norm_num) (List.mem_reverse.mp hd))

theorem renderNat_ne_nil (n : Nat) : renderNat n ≠ [] := by
  by_cases h : n = 0
  · subst h; decide
  · rw [renderNat, if_neg h, digitsOf]
    simp [Nat.digits_ne_nil_iff_ne_zero.mpr h]

theorem grabDigits_stop {cs : List Char} (h : headSafe cs = true) :
    grabDigits cs = ([], cs) := by
  match cs with
  | [] => rfl
  | c :: t =>
      simp only [headSafe, Bool.not_eq_true'] at h
      simp [grabDigits, h]

theorem grabDigits_run (ds : List Char) (hds : ∀ c ∈ ds, isDig c = true)
    {rest : List Char} (hr : headSafe rest = true) :
    grabDigits (ds ++ rest) = (ds, rest) := by
  induction ds with
  | nil => simpa using grabDigits_stop hr
  | cons c t ih =>
      have hc : isDig c = true := hds c (List.mem_cons_self _ _)
      have ht := ih (fun x hx => hds x (List.mem_cons_of_mem _ hx))
      simp [grabDigits, hc, ht]

/-! ### Codec round-trip: string lemmas -/

theorem hexValOf_hexDig {d : Nat} (h : d < 16) : hexValOf (hexDig d) = some d := by
  interval_cases d <;> decide

theorem scanStr_u {a b x y : Char} {va vb vx vy : Nat} {ch : Char} (r : List Char)
    (ha : hexValOf a = some va) (hb : hexValOf b = some vb)
    (hx : hexValOf x = some vx) (hy : hexValOf y = some vy)
    (hch : mkScalar (((va * 16 + vb) * 16 + vx) * 16 + vy) = some ch) :
    scanStr ('\\' :: 'u' :: a :: b :: x :: y :: r)
      = (scanStr r).map fun p => (ch :: p.1, p.2) := by
  simp [scanStr, ha, hb, hx, hy, hch]

theorem scanStr_plain {c : Char} (r : List Char) (h1 : ¬c = '"') (h2 : ¬c = '\\')
    (h3 : ¬c.toNat < 32) :
    scanStr (c :: r) = (scanStr r).map fun p => (c :: p.1, p.2) := by
  rw [scanStr.eq_def]
  split
  · rename_i heq; simp at heq
  · rename_i heq; injection heq with heq1 _; exact absurd heq1 h1
  · rename_i heq; injection heq with heq1 _; exact absurd heq1 h2
  · rename_i heq; injection heq with heq1 _; exact absurd heq1 h2
  · rename_i heq; injection heq with heq1 _; exact absurd heq1 h2
  · rename_i c2 cs2 heq
    injection heq with heq1 heq2
    subst heq1; subst heq2
    rw [if_neg h3]

theorem scan_escape (c : Char) (r : List Char) :
    scanStr (escapeChar c ++ r) = (scanStr r).map fun p => (c :: p.1, p.2) := by
  by_cases h1 : c = '"'
  · subst h1; rfl
  by_cases h2 : c = '\\'
  · subst h2; rfl
  by_cases h3 : c = '\x08'
  · subst h3; rfl
  by_cases h4 : c = '\t'
  · subst h4; rfl
  by_cases h5 : c = '\n'
  · subst h5; rfl
  by_cases h6 : c = '\x0c'
  · subst h6; rfl
  by_cases h7 : c = '\r'
  · subst h7; rfl
  by_cases h8 : c.toNat < 32
  · have hdiv : c.toNat / 16 < 16 := by omega
    have hmod : c.toNat % 16 < 16 := Nat.mod_lt _ (by omega)
    have harith : ((0 * 16 + 0) * 16 + c.toNat / 16) * 16 + c.toNat % 16 = c.toNat := by
      omega
    have hch : mkScalar (((0 * 16 + 0) * 16 + c.toNat / 16) * 16 + c.toNat % 16)
        = some c := by
      rw [harith]
      unfold mkScalar
      rw [if_pos (Or.inl (by omega)), Char.ofNat_toNat]
    simp only [escapeChar, if_neg h1, if_neg h2, if_neg h3, if_neg h4, if_neg h5,
      if_neg h6, if_neg h7, if_pos h8, List.cons_append, List.nil_append]
    exact scanStr_u r (by decide) (by decide) (hexValOf_hexDig hdiv)
      (hexValOf_hexDig hmod) hch
  · simp only [escapeChar, if_neg h1, if_neg h2, if_neg h3, if_neg h4, if_neg h5,
      if_neg h6, if_neg h7, if_neg h8, List.cons_append, List.nil_append]
    exact scanStr_plain r h1 h2 h8

theorem scan_body (l : List Char) (rest : List Char) :
    scanStr (l.flatMap escapeChar ++ '"' :: rest) = some (l, rest) := by
  induction l with
  | nil => simp [scanStr]
  | cons c t ih =>
      rw [List.flatMap_cons, List.append_assoc, scan_escape, ih]
      rfl

theorem scan_strBody (s : String) (rest : List Char) :
    scanStr (strBody s ++ '"' :: rest) = some (s.toList, rest) :=
  scan_body s.toList rest

/-! ### Codec round-trip: the renderer's leading character -/

theorem render_head (j : Json) :
    ∃ c t, Json.render j = c :: t ∧ c ≠ ']' ∧ c ≠ '}' := by
  cases j with
  | null => exact ⟨'n', _, rfl, by decide, by decide⟩
  | bool b =>
      cases b with
      | true => exact ⟨'t', _, rfl, by decide, by decide⟩
      | false => exact ⟨'f', _, rfl, by decide, by decide⟩
  | str s => exact ⟨'"', _, rfl, by decide, by decide⟩
  | arr items => exact ⟨'[', _, rfl, by decide, by decide⟩
  | obj members => exact ⟨'{', _, rfl, by decide, by decide⟩
  | num i =>
      by_cases hneg : i < 0
      · refine ⟨'-', renderNat i.natAbs, ?_, by decide, by decide⟩
        simp [Json.render, renderInt, hneg]
      · obtain ⟨c, t, hct⟩ : ∃ c t, renderNat i.natAbs = c :: t := by
          cases h : renderNat i.natAbs with
          | nil => exact absurd h (renderNat_ne_nil _)
          | cons c t => exact ⟨c, t, rfl⟩
        have hc : isDig c = true := renderNat_digits _ c (hct ▸ List.mem_cons_self _ _)
        refine ⟨c, t, ?_, ?_, ?_⟩
        · simp [Json.render, renderInt, hneg, hct]
        · intro h; subst h; exact absurd hc (by decide)
        · intro h; subst h; exact absurd hc (by decide)

theorem render_len_pos (j : Json) : 0 < (Json.render j).length := by
  obtain ⟨c, t, h, -, -⟩ := render_head j
  simp [h]

/-! ### Codec round-trip: parser branch helpers -/

theorem strEta (s : String) : (⟨s.toList⟩ : String) = s := rfl

theorem parseVal_quote (fuel : Nat) (cs : List Char) :
    parseVal (fuel + 1) ('"' :: cs)
      = (scanStr cs).map fun p => (Json.str ⟨p.1⟩, p.2) := rfl

theorem parseVal_arr_cons (fuel : Nat) {c : Char} (t : List Char) (hc : c ≠ ']') :
    parseVal (fuel + 1) ('[' :: c :: t)
      = (parseItems fuel (c :: t)).map fun p => (Json.arr p.1, p.2) := by
  show (match c :: t with
        | ']' :: r => some (Json.arr [], r)
        | _ => (parseItems fuel (c :: t)).map
            fun (p : List Json × List Char) => (Json.arr p.1, p.2)) = _
  split
  · rename_i heq; injection heq with heq1 _; exact absurd heq1 hc
  · rfl

theorem parseVal_obj_cons (fuel : Nat) {c : Char} (t : List Char) (hc : c ≠ '}') :
    parseVal (fuel + 1) ('{' :: c :: t)
      = (parseMembers fuel (c :: t)).map fun p => (Json.obj p.1, p.2) := by
  show (match c :: t with
        | '}' :: r => some (Json.obj [], r)
        | _ => (parseMembers fuel (c :: t)).map
            fun (p : List (String × Json) × List Char) => (Json.obj p.1, p.2)) = _
  split
  · rename_i heq; injection heq with heq1 _; exact absurd heq1 hc
  · rfl

theorem not_dig_starts {c : Char} (h : isDig c = true) :
    (c ≠ 'n' ∧ c ≠ 't' ∧ c ≠ 'f') ∧ (c ≠ '"' ∧ c ≠ '[' ∧ c ≠ '{') ∧ c ≠ '-' := by
  refine ⟨⟨?_, ?_, ?_⟩, ⟨?_, ?_, ?_⟩, ?_⟩ <;>
    (intro hEq; rw [hEq] at h; exact absurd h (by decide))

theorem parseVal_digit (fuel : Nat) {c : Char} (t : List Char) (hc : isDig c = true) :
    parseVal (fuel + 1) (c :: t)
      = some (.num (natOfDigits (grabDigits (c :: t)).1 : Int), (grabDigits (c :: t)).2) := by
  obtain ⟨⟨hn, ht, hf⟩, ⟨hq, hbk, hbc⟩, hm⟩ := not_dig_starts hc
  simp only [parseVal]
  rw [if_neg hn, if_neg ht, if_neg hf, if_neg hq, if_neg hbk, if_neg hbc,
    if_neg hm, if_pos hc]

theorem parseVal_minus (fuel : Nat) {d : Char} {ds r : List Char} (t : List Char)
    (hgrab : grabDigits t = (d :: ds, r)) :
    parseVal (fuel + 1) ('-' :: t)
      = some (.num (-(natOfDigits (d :: ds) : Int)), r) := by
  show (match grabDigits t with
        | ([], _) => none
        | (d :: ds, r) => some (Json.num (-(natOfDigits (d :: ds) : Int)), r))
      = some (Json.num (-(natOfDigits (d :: ds) : Int)), r)
  rw [hgrab]

theorem headSafe_cons {c : Char} (rest : List Char) (h : isDig c = false) :
    headSafe (c :: rest) = true := by
  simp [headSafe, h]

/-! ### Codec round-trip: the main induction -/

mutual

theorem rtVal : ∀ (j : Json) (fuel : Nat) (rest : List Char),
    (Json.render j).length < fuel → headSafe rest = true →
    parseVal fuel (Json.render j ++ rest) = some (j, rest)
  | .null, fuel, rest, hf, _ => by
      cases fuel with
      | zero => exact absurd hf (Nat.not_lt_zero _)
      | succ f => rfl
  | .bool true, fuel, rest, hf, _ => by
      cases fuel with
      | zero => exact absurd hf (Nat.not_lt_zero _)
      | succ f => rfl
  | .bool false, fuel, rest, hf, _ => by
      cases fuel with
      | zero => exact absurd hf (Nat.not_lt_zero _)
      | succ f => rfl
  | .num i, fuel, rest, hf, hr => by
      cases fuel with
      | zero => exact absurd hf (Nat.not_lt_zero _)
      | succ f =>
          by_cases hneg : i < 0
          · have hren : Json.render (Json.num i) = '-' :: renderNat i.natAbs := by
              simp [Json.render, renderInt, hneg]
            obtain ⟨d, ds, hds⟩ : ∃ d ds, renderNat i.natAbs = d :: ds := by
              cases h : renderNat i.natAbs with
              | nil => exact absurd h (renderNat_ne_nil _)
              | cons d ds => exact ⟨d, ds, rfl⟩
            have hgrab : grabDigits (renderNat i.natAbs ++ rest)
                = (d :: ds, rest) := by
              rw [grabDigits_run _ (renderNat_digits _) hr, hds]
            have hval : (-(natOfDigits (d :: ds) : Int)) = i := by
              rw [← hds, natOfDigits_renderNat]
              omega
            rw [hren, List.cons_append,
              parseVal_minus f (renderNat i.natAbs ++ rest) hgrab, hval]
          · have hren : Json.render (Json.num i) = renderNat i.natAbs := by
              simp [Json.render, renderInt, hneg]
            obtain ⟨d, ds, hds⟩ : ∃ d ds, renderNat i.natAbs = d :: ds := by
              cases h : renderNat i.natAbs with
              | nil => exact absurd h (renderNat_ne_nil _)
              | cons d ds => exact ⟨d, ds, rfl⟩
            have hd : isDig d = true :=
              renderNat_digits _ d (hds ▸ List.mem_cons_self _ _)
            have hgrab : grabDigits (renderNat i.natAbs ++ rest)
                = (renderNat i.natAbs, rest) :=
              grabDigits_run _ (renderNat_digits _) hr
            rw [hren, hds, List.cons_append, parseVal_digit f _ hd,
              ← List.cons_append, ← hds, hgrab]
            simp only [natOfDigits_renderNat,
              Int.natAbs_of_nonneg (by omega : (0 : Int) ≤ i)]
  | .str s, fuel, rest, hf, _ => by
      cases fuel with
      | zero => exact absurd hf (Nat.not_lt_zero _)
      | succ f =>
          have harg : Json.render (Json.str s) ++ rest
              = '"' :: (strBody s ++ '"' :: rest) := by
            simp [Json.render]
          rw [harg, parseVal_quote, scan_strBody, Option.map_some', strEta]
  | .arr [], fuel, rest, hf, _ => by
      cases fuel with
      | zero => exact absurd hf (Nat.not_lt_zero _)
      | succ f => rfl
  | .arr (x :: xs), fuel, rest, hf, _ => by
      cases fuel with
      | zero => exact absurd hf (Nat.not_lt_zero _)
      | succ f =>
          obtain ⟨c, t, hct, hc, -⟩ := render_head x
          have harg : Json.render (Json.arr (x :: xs)) ++ rest
              = '[' :: (renderArr (x :: xs) ++ ']' :: rest) := by
            simp [Json.render]
          obtain ⟨t2, hcons⟩ : ∃ t2, renderArr (x :: xs) ++ ']' :: rest = c :: t2 := by
            cases xs with
            | nil => exact ⟨t ++ ']' :: rest, by simp [renderArr, hct]⟩
            | cons y ys =>
                exact ⟨t ++ ',' :: renderArr (y :: ys) ++ ']' :: rest,
                  by simp [renderArr, hct]⟩
          have hfl : (renderArr (x :: xs)).length + 1 < f := by
            have : (Json.render (Json.arr (x :: xs))).length
                = (renderArr (x :: xs)).length + 2 := by
              simp [Json.render]
            omega
          rw [harg, hcons, parseVal_arr_cons f _ hc, ← hcons,
            rtItems x xs f rest hfl]
          rfl
  | .obj [], fuel, rest, hf, _ => by
      cases fuel with
      | zero => exact absurd hf (Nat.not_lt_zero _)
      | succ f => rfl
  | .obj (m :: ms), fuel, rest, hf, _ => by
      cases fuel with
      | zero => exact absurd hf (Nat.not_lt_zero _)
      | succ f =>
          have harg : Json.render (Json.obj (m :: ms)) ++ rest
              = '{' :: (renderObj (m :: ms) ++ '}' :: rest) := by
            simp [Json.render]
          have hcons : ∃ t, renderObj (m :: ms) ++ '}' :: rest = '"' :: t := by
            obtain ⟨k, v⟩ := m
            cases ms with
            | nil =>
                exact ⟨strBody k ++ '"' :: ':' :: (Json.render v ++ '}' :: rest),
                  by simp [renderObj]⟩
            | cons m2 ms2 =>
                exact ⟨strBody k ++ '"' :: ':' :: (Json.render v
                    ++ ',' :: (renderObj (m2 :: ms2) ++ '}' :: rest)),
                  by simp [renderObj]⟩
          obtain ⟨t, ht⟩ := hcons
          have hfl : (renderObj (m :: ms)).length + 1 < f := by
            have : (Json.render (Json.obj (m :: ms))).length
                = (renderObj (m :: ms)).length + 2 := by
              simp [Json.render]
            omega
          rw [harg, ht, parseVal_obj_cons f _ (by decide), ← ht,
            rtMembers m ms f rest hfl]
          rfl
  termination_by j _ _ _ _ => sizeOf j

theorem rtItems : ∀ (x : Json) (xs : List Json) (fuel : Nat) (rest : List Char),
    (renderArr (x :: xs)).length + 1 < fuel →
    parseItems fuel (renderArr (x :: xs) ++ ']' :: rest) = some (x :: xs, rest)
  | x, [], fuel, rest, hf => by
      cases fuel with
      | zero => omega
      | succ f =>
          have hfx : (Json.render x).length < f := by
            simp only [renderArr] at hf; omega
          have hv := rtVal x f (']' :: rest) hfx (headSafe_cons _ (by decide))
          have hra : renderArr [x] = Json.render x := rfl
          simp only [parseItems, hra, hv]
  | x, y :: ys, fuel, rest, hf => by
      cases fuel with
      | zero => omega
      | succ f =>
          have hlx := render_len_pos x
          have hly := render_len_pos y
          have hlen : (renderArr (x :: y :: ys)).length
              = (Json.render x).length + 1 + (renderArr (y :: ys)).length := by
            simp [renderArr]
            omega
          have hfx : (Json.render x).length < f := by omega
          have hfy : (renderArr (y :: ys)).length + 1 < f := by
            have : 0 < (Json.render x).length := hlx
            omega
          have hv := rtVal x f (',' :: (renderArr (y :: ys) ++ ']' :: rest)) hfx
            (headSafe_cons _ (by decide))
          have key := rtItems y ys f rest hfy
          have harg : renderArr (x :: y :: ys) ++ ']' :: rest
              = Json.render x ++ ',' :: (renderArr (y :: ys) ++ ']' :: rest) := by
            simp [renderArr]
          simp only [parseItems, harg, hv, key, Option.map_some']
  termination_by x xs _ _ _ => sizeOf x + sizeOf xs

theorem rtMembers : ∀ (m : String × Json) (ms : List (String × Json)) (fuel : Nat)
    (rest : List Char),
    (renderObj (m :: ms)).length + 1 < fuel →
    parseMembers fuel (renderObj (m :: ms) ++ '}' :: rest) = some (m :: ms, rest)
  | (k, v), [], fuel, rest, hf => by
      cases fuel with
      | zero => omega
      | succ f =>
          have hfv : (Json.render v).length < f := by
            simp only [renderObj, List.length_cons, List.length_append] at hf
            omega
          have hv := rtVal v f ('}' :: rest) hfv (headSafe_cons _ (by decide))
          have harg : renderObj [(k, v)] ++ '}' :: rest
              = '"' :: (strBody k ++ '"' :: (':' :: (Json.render v ++ '}' :: rest))) := by
            simp [renderObj]
          simp only [parseMembers, harg, scan_strBody, hv, strEta]
  | (k, v), m2 :: ms2, fuel, rest, hf => by
      cases fuel with
      | zero => omega
      | succ f =>
          have hlv := render_len_pos v
          have hlen : (renderObj ((k, v) :: m2 :: ms2)).length
              = (strBody k).length + 3 + (Json.render v).length + 1
                  + (renderObj (m2 :: ms2)).length := by
            simp [renderObj]
            omega
          have hfv : (Json.render v).length < f := by omega
          have hfm : (renderObj (m2 :: ms2)).length + 1 < f := by omega
          have hv := rtVal v f (',' :: (renderObj (m2 :: ms2) ++ '}' :: rest)) hfv
            (headSafe_cons _ (by decide))
          have key := rtMembers m2 ms2 f rest hfm
          have harg : renderObj ((k, v) :: m2 :: ms2) ++ '}' :: rest
              = '"' :: (strBody k ++ '"' :: (':' :: (Json.render v
                  ++ ',' :: (renderObj (m2 :: ms2) ++ '}' :: rest)))) := by
            simp [renderObj]
          simp only [parseMembers, harg, scan_strBody, hv, key, Option.map_some', strEta]
  termination_by m ms _ _ _ => sizeOf m + sizeOf ms

end

/-! ### Top-level round-trip -/

theorem isWs_of_dig {c : Char} (h : isDig c = true) : isWsChar c = false := by
  simp only [isWsChar, Bool.or_eq_false_iff, decide_eq_false_iff_not]
  refine ⟨⟨⟨?_, ?_⟩, ?_⟩, ?_⟩ <;> (intro hEq; rw [hEq] at h; exact absurd h (by decide))

theorem render_head_not_ws (j : Json) :
    ∃ c t, Json.render j = c :: t ∧ isWsChar c = false := by
  cases j with
  | null => exact ⟨'n', _, rfl, by decide⟩
  | bool b =>
      cases b with
      | true => exact ⟨'t', _, rfl, by decide⟩
      | false => exact ⟨'f', _, rfl, by decide⟩
  | str s => exact ⟨'"', _, rfl, by decide⟩
  | arr items => exact ⟨'[', _, rfl, by decide⟩
  | obj members => exact ⟨'{', _, rfl, by decide⟩
  | num i =>
      by_cases hneg : i < 0
      · refine ⟨'-', renderNat i.natAbs, ?_, by decide⟩
        simp [Json.render, renderInt, hneg]
      · obtain ⟨c, t, hct⟩ : ∃ c t, renderNat i.natAbs = c :: t := by
          cases h : renderNat i.natAbs with
          | nil => exact absurd h (renderNat_ne_nil _)
          | cons c t => exact ⟨c, t, rfl⟩
        have hc : isDig c = true := renderNat_digits _ c (hct ▸ List.mem_cons_self _ _)
        refine ⟨c, t, ?_, isWs_of_dig hc⟩
        simp [Json.render, renderInt, hneg, hct]

/-- Parsing a rendered value followed by a whitespace-only tail recovers the
value: `serde_json::from_str` applied to a framed line (`render + "\n"`). -/
theorem parse_render_tail (j : Json) (tail : List Char)
    (htail : ∀ c ∈ tail, isWsChar c = true) (hhead : headSafe tail = true) :
    Json.parse ⟨j.render ++ tail⟩ = some j := by
  obtain ⟨c, t, hct, hcws⟩ := render_head_not_ws j
  have hdrop : (j.render ++ tail).dropWhile isWsChar = j.render ++ tail := by
    rw [hct, List.cons_append, List.dropWhile_cons_of_neg (by simp [hcws])]
  have hlen : (Json.render j).length < (j.render ++ tail).length + 1 := by
    simp
    omega
  have hrt := rtVal j ((j.render ++ tail).length + 1) tail hlen hhead
  show Json.parse ⟨j.render ++ tail⟩ = some j
  unfold Json.parse
  simp only [show (⟨j.render ++ tail⟩ : String).toList = j.render ++ tail from rfl,
    hdrop, hrt]
  rw [if_pos (List.dropWhile_eq_nil_iff.mpr htail)]

/-- The framed-line round-trip: `parse (render j ++ "\n") = some j`. -/
theorem parse_render_line (j : Json) : Json.parse ⟨j.render ++ ['\n']⟩ = some j :=
  parse_render_tail j ['\n'] (by decide) (by decide)

/-! ### The rendered line contains no newline -/

theorem hexDig_ne_nl {k : Nat} (h : k < 16) : hexDig k ≠ '\n' := by
  interval_cases k <;> decide

theorem dChar_ne_nl {d : Nat} (h : d < 10) : dChar d ≠ '\n' := by
  interval_cases d <;> decide

theorem escapeChar_noNL (c : Char) : '\n' ∉ escapeChar c := by
  by_cases h1 : c = '"'
  · subst h1; decide
  by_cases h2 : c = '\\'
  · subst h2; decide
  by_cases h3 : c = '\x08'
  · subst h3; decide
  by_cases h4 : c = '\t'
  · subst h4; decide
  by_cases h5 : c = '\n'
  · subst h5; decide
  by_cases h6 : c = '\x0c'
  · subst h6; decide
  by_cases h7 : c = '\r'
  · subst h7; decide
  by_cases h8 : c.toNat < 32
  · have hdiv : c.toNat / 16 < 16 := by omega
    have hmod : c.toNat % 16 < 16 := Nat.mod_lt _ (by omega)
    simp only [escapeChar, if_neg h1, if_neg h2, if_neg h3, if_neg h4, if_neg h5,
      if_neg h6, if_neg h7, if_pos h8, List.mem_cons, List.not_mem_nil, or_false]
    push_neg
    exact ⟨by decide, by decide, by decide, by decide,
      fun hEq => hexDig_ne_nl hdiv hEq.symm, fun hEq => hexDig_ne_nl hmod hEq.symm⟩
  · simp only [escapeChar, if_neg h1, if_neg h2, if_neg h3, if_neg h4, if_neg h5,
      if_neg h6, if_neg h7, if_neg h8, List.mem_singleton]
    exact fun hEq => h5 hEq.symm

theorem strBody_noNL (s : String) : '\n' ∉ strBody s := by
  intro hmem
  obtain ⟨c, -, hc⟩ := List.mem_flatMap.mp hmem
  exact escapeChar_noNL c hc

theorem renderNat_noNL (n : Nat) : '\n' ∉ renderNat n := by
  intro hmem
  have := renderNat_digits n _ hmem
  exact absurd this (by decide)

theorem renderInt_noNL (i : Int) : '\n' ∉ renderInt i := by
  unfold renderInt
  by_cases hneg : i < 0
  · rw [if_pos hneg]
    intro hmem
    rcases List.mem_cons.mp hmem with h | h
    · exact absurd h.symm (by decide)
    · exact renderNat_noNL _ h
  · rw [if_neg hneg]; exact renderNat_noNL _

mutual

theorem render_noNL : ∀ j : Json, '\n' ∉ Json.render j
  | .null => by decide
  | .bool true => by decide
  | .bool false => by decide
  | .num i => by
      have h := renderInt_noNL i
      simpa [Json.render] using h
  | .str s => by
      have h := strBody_noNL s
      simp only [Json.render, List.mem_cons, List.mem_append, List.mem_singleton]
      push_neg
      exact ⟨by decide, h, by decide⟩
  | .arr items => by
      have h := renderArr_noNL items
      simp only [Json.render, List.mem_cons, List.mem_append, List.mem_singleton]
      push_neg
      exact ⟨by decide, h, by decide⟩
  | .obj members => by
      have h := renderObj_noNL members
      simp only [Json.render, List.mem_cons, List.mem_append, List.mem_singleton]
      push_neg
      exact ⟨by decide, h, by decide⟩

theorem renderArr_noNL : ∀ items : List Json, '\n' ∉ renderArr items
  | [] => by decide
  | [x] => by
      have h := render_noNL x
      simpa [renderArr] using h
  | x :: y :: rest => by
      have h1 := render_noNL x
      have h2 := renderArr_noNL (y :: rest)
      simp only [renderArr, List.mem_append, List.mem_cons]
      push_neg
      exact ⟨h1, by decide, h2⟩

theorem renderObj_noNL : ∀ members : List (String × Json), '\n' ∉ renderObj members
  | [] => by decide
  | [(k, v)] => by
      have h1 := strBody_noNL k
      have h2 := render_noNL v
      simp only [renderObj, List.mem_cons, List.mem_append]
      push_neg
      exact ⟨by decide, h1, by decide, by decide, h2⟩
  | (k, v) :: m :: rest => by
      have h1 := strBody_noNL k
      have h2 := render_noNL v
      have h3 := renderObj_noNL (m :: rest)
      simp only [renderObj, List.mem_append, List.mem_cons]
      push_neg
      exact ⟨⟨by decide, h1, by decide, by decide, h2⟩, by decide, h3⟩

end

/-! ## The RPC envelope (`rpc.rs`, `tcp.rs`)

`tcp.rs` declares private `RpcRequest`/`RpcResponse`/`RpcErrorObject` types
identical to the public ones of `rpc.rs`; one model serves both. -/

/-- `RpcRequest` (rpc.rs lines 31-48): `id` is a `u64`; `params` is
`Option<Value>` and serializes as `null` when absent. -/
structure RpcRequest where
  jsonrpc : String
  method : String
  params : Option Json
  id : Nat

/-- `RpcRequest::new`: fixes `jsonrpc` to `"2.0"`. -/
def RpcRequest.new (method : String) (params : Option Json) (id : Nat) : RpcRequest :=
  { jsonrpc := "2.0", method := method, params := params, id := id }

/-- The JSON object `#[derive(Serialize)]` produces for a request: fields in
declaration order, absent `params` as `null`. -/
def RpcRequest.toJson (r : RpcRequest) : Json :=
  .obj [("jsonrpc", .str r.jsonrpc), ("method", .str r.method),
        ("params", r.params.getD .null), ("id", .num (r.id : Int))]

/-- `serde_json::to_string(&request)` followed by `writeln!`: one JSON line,
newline-terminated (rpc.rs lines 103-106; tcp.rs lines 180-183). -/
def encodeRequest (method : String) (params : Option Json) (id : Nat) : List Char :=
  (RpcRequest.new method params id).toJson.render ++ ['\n']

/-- `RpcErrorObject` (rpc.rs lines 58-63): `code: i64`, `message: String`,
optional `data`. -/
structure RpcErrorObject where
  code : Int
  message : String
  data : Option Json

/-- The decoded view of `RpcResponse` (rpc.rs lines 50-56): `jsonrpc` is a
required `String` field; `result`, `error` and `id` are optional. -/
structure RpcResponse where
  jsonrpc : String
  result : Option Json
  error : Option RpcErrorObject
  id : Option Nat

/-- First-occurrence field lookup in a decoded object. (`serde` rejects a
duplicated field outright; no behavior modelled here depends on duplicates.) -/
def lookupField : List (String × Json) → String → Option Json
  | [], _ => none
  | (k, v) :: rest, key => if k = key then some v else lookupField rest key

/-- serde's decode of an `Option<Value>` field: absent or `null` is `None`;
it never fails. -/
def decodeOptValue (fields : List (String × Json)) (key : String) : Option Json :=
  match lookupField fields key with
  | none => none
  | some .null => none
  | some v => some v

/-- serde's decode of an `Option<u64>` field: absent or `null` is `None`; a
number out of `u64` range or a non-number is a deserialization error
(outer `none`). -/
def decodeOptU64 (fields : List (String × Json)) (key : String) : Option (Option Nat) :=
  match lookupField fields key with
  | none => some none
  | some .null => some none
  | some (.num n) => if 0 ≤ n ∧ n < (2 : Int) ^ 64 then some (some n.toNat) else none
  | some _ => none

/-- serde's decode of an `RpcErrorObject`: `code` must be an `i64` number,
`message` a string; `data` is optional; unknown fields are ignored. -/
def decodeErrorObject : Json → Option RpcErrorObject
  | .obj fields =>
      match lookupField fields "code", lookupField fields "message" with
      | some (.num c), some (.str m) =>
          if -((2 : Int) ^ 63) ≤ c ∧ c < (2 : Int) ^ 63 then
            some { code := c, message := m, data := decodeOptValue fields "data" }
          else none
      | _, _ => none
  | _ => none

/-- serde's decode of the optional `error` field. -/
def decodeOptError (fields : List (String × Json)) : Option (Option RpcErrorObject) :=
  match lookupField fields "error" with
  | none => some none
  | some .null => some none
  | some v => (decodeErrorObject v).map some

/-- `Deserialize` for `RpcResponse`: the document must be an object with a
string `jsonrpc` field; unknown fields are ignored. -/
def RpcResponse.fromJson : Json → Option RpcResponse
  | .obj fields =>
      match lookupField fields "jsonrpc" with
      | some (.str ver) =>
          match decodeOptError fields, decodeOptU64 fields "id" with
          | some err, some idv =>
              some { jsonrpc := ver, result := decodeOptValue fields "result",
                     error := err, id := idv }
          | _, _ => none
      | _ => none
  | _ => none

/-- `serde_json::from_str::<RpcResponse>` applied to one received line. -/
def decodeResponse (s : String) : Option RpcResponse :=
  (Json.parse s).bind RpcResponse.fromJson

/-! ## Error taxonomy (`rpc.rs` lines 9-29, `tcp.rs` lines 11-37) -/

/-- The `std::io::ErrorKind` detail the model tracks: whether a read failed
because the socket read timeout expired (`WouldBlock`/`TimedOut`). -/
inductive IoKind where
  | timedOut
  | other
deriving DecidableEq

/-- `RpcError` (rpc.rs lines 9-29). `ioError` wraps an `std::io::Error`
(kind and display text); `jsonError` wraps a `serde_json::Error` (its
display text is not modelled). -/
inductive RpcError where
  | ioError (k : IoKind) (msg : String)
  | jsonError
  | rpc (code : Int) (message : String) (data : Option Json)
  | notConnected
  | invalidResponse (msg : String)

/-- `TcpRpcError` (tcp.rs lines 11-37). Note the declared `timeout` variant. -/
inductive TcpRpcError where
  | connectionFailed (msg : String)
  | ioError (k : IoKind) (msg : String)
  | jsonError
  | rpc (code : Int) (message : String) (data : Option Json)
  | notConnected
  | timeout
  | invalidResponse (msg : String)

/-- The `thiserror` display of `RpcError` (the wrapped serde message is
elided). -/
def RpcError.display : RpcError → String
  | .ioError _ msg => "IO error: " ++ msg
  | .jsonError => "JSON error"
  | .rpc code message _ => "RPC error " ++ toString code ++ ": " ++ message
  | .notConnected => "Bridge not connected"
  | .invalidResponse msg => "Invalid response: " ++ msg

/-- The `thiserror` display of `TcpRpcError`. -/
def TcpRpcError.display : TcpRpcError → String
  | .connectionFailed msg => "Connection failed: " ++ msg
  | .ioError _ msg => "IO error: " ++ msg
  | .jsonError => "JSON error"
  | .rpc code message _ => "RPC error " ++ toString code ++ ": " ++ message
  | .notConnected => "Not connected"
  | .timeout => "Connection timeout"
  | .invalidResponse msg => "Invalid response: " ++ msg

/-! ## Channel behavior and observable actions

A transport call is deterministic given how the environment resolves its
write and its blocking read; a `*Channel` value is that resolution. -/

/-- One write+flush attempt, as the environment resolves it. -/
inductive WriteOutcome where
  | ok
  | ioError (msg : String)

/-- One blocking `read_line` on the child's pipe. The stdio transport has no
read timeout; a wedged child that never answers is a call that never
returns, which is outside this model's range. -/
inductive PipeRead where
  | line (s : String)
  | ioError (msg : String)

/-- One blocking `read_line` on the socket: a line, an I/O failure, or the
read timeout expiring — in which case the OS read returns an `io::Error`
of kind `WouldBlock`/`TimedOut`. -/
inductive TcpRead where
  | line (s : String)
  | ioError (msg : String)
  | timeoutExpired (msg : String)

structure PipeChannel where
  wr : WriteOutcome
  rd : PipeRead

structure TcpChannel where
  wr : WriteOutcome
  rd : TcpRead

/-- Observable side effects on the environment, recorded in order. -/
inductive Action where
  | spawned
  | killChild
  | waitChild
  | pipeConnect
  | pipeDisconnect
  | pipeWrite
  | pipeRead
  | tcpConnect
  | tcpDisconnect
  | tcpWrite
  | tcpRead
deriving DecidableEq

/-! ## Stdio transport client (`rpc.rs` lines 65-151) -/

/-- `RpcClient`: the two pipe handles (modelled by presence) and the
`AtomicU64` request-id counter. -/
structure RpcClient where
  stdin : Bool
  stdout : Bool
  request_id : Nat

/-- `RpcClient::new`: no handles, counter starts at 1. -/
def RpcClient.new : RpcClient := ⟨false, false, 1⟩

/-- `RpcClient::connect`: installs both handles; the counter is untouched. -/
def RpcClient.connect (c : RpcClient) : RpcClient :=
  { c with stdin := true, stdout := true }

/-- `RpcClient::disconnect`: drops both handles; the counter is untouched. -/
def RpcClient.disconnect (c : RpcClient) : RpcClient :=
  { c with stdin := false, stdout := false }

/-- `RpcClient::is_connected`. -/
def RpcClient.is_connected (c : RpcClient) : Bool := c.stdin

/-- The id-mismatch message of rpc.rs line 133 (`{}` formatting after
`unwrap_or(0)`). -/
def mismatchMsgPipe (respId : Option Nat) (reqId : Nat) : String :=
  "Response ID " ++ toString (respId.getD 0) ++ " doesn\x27t match request ID "
    ++ toString reqId

/-- `{:?}` debug formatting of an `Option<u64>`. -/
def optDebug : Option Nat → String
  | none => "None"
  | some n => "Some(" ++ toString n ++ ")"

/-- The id-mismatch message of tcp.rs line 211 (`{:?}` formatting). -/
def mismatchMsgTcp (respId : Option Nat) (reqId : Nat) : String :=
  "Response ID " ++ optDebug respId ++ " doesn\x27t match request ID "
    ++ toString reqId

/-- rpc.rs lines 120-143: decode the received line, surface a structured
error if present, check id correlation, extract the result. -/
def interpretLinePipe (s : String) (reqId : Nat) : Except RpcError Json :=
  match decodeResponse s with
  | none => .error .jsonError
  | some resp =>
      match resp.error with
      | some e => .error (.rpc e.code e.message e.data)
      | none =>
          if resp.id ≠ some reqId then
            .error (.invalidResponse (mismatchMsgPipe resp.id reqId))
          else
            match resp.result with
            | some r => .ok r
            | none => .error (.invalidResponse "Response has neither result nor error")

/-- `RpcClient::call` (rpc.rs lines 94-144): allocate the id by `fetch_add`,
require the stdin handle, write+flush the request line, require the stdout
handle, read one line, interpret it. -/
def RpcClient.call (c : RpcClient) (method : String) (params : Option Json)
    (ch : PipeChannel) : Except RpcError Json × RpcClient × List Action :=
  let id := c.request_id
  let c2 := { c with request_id := (c.request_id + 1) % 2 ^ 64 }
  let _line := encodeRequest method params id
  if ¬ c.stdin then (.error .notConnected, c2, [])
  else
    match ch.wr with
    | .ioError msg => (.error (.ioError .other msg), c2, [.pipeWrite])
    | .ok =>
        if ¬ c.stdout then (.error .notConnected, c2, [.pipeWrite])
        else
          match ch.rd with
          | .ioError msg => (.error (.ioError .other msg), c2, [.pipeWrite, .pipeRead])
          | .line s => (interpretLinePipe s id, c2, [.pipeWrite, .pipeRead])

/-! ## TCP transport client (`tcp.rs` lines 77-226) -/

/-- `TcpRpcClient`: the socket handle and its buffered-reader clone
(modelled by presence) and the request-id counter. The connect/read
timeout durations configure the socket; their effect appears as the
`timeoutExpired` read outcome. -/
structure TcpRpcClient where
  stream : Bool
  reader : Bool
  request_id : Nat

/-- `TcpRpcClient::new`: not connected, counter starts at 1. -/
def TcpRpcClient.new : TcpRpcClient := ⟨false, false, 1⟩

/-- `TcpRpcClient::connect` (tcp.rs lines 117-147), given the environment's
resolution of the connect attempt (`none` = established; `some e` = the
error returned: address parse or connect failure as `ConnectionFailed`,
socket-option or clone failure as `Io`). On failure nothing is stored. -/
def TcpRpcClient.connect (c : TcpRpcClient) (outcome : Option TcpRpcError) :
    Except TcpRpcError Unit × TcpRpcClient :=
  match outcome with
  | some e => (.error e, c)
  | none => (.ok (), { c with stream := true, reader := true })

/-- `TcpRpcClient::disconnect`: drops both handles; the counter is untouched. -/
def TcpRpcClient.disconnect (c : TcpRpcClient) : TcpRpcClient :=
  { c with stream := false, reader := false }

/-- `TcpRpcClient::is_connected`. -/
def TcpRpcClient.is_connected (c : TcpRpcClient) : Bool := c.stream

/-- tcp.rs lines 197-219: decode the received line, surface a structured
error, check id correlation, extract the result. -/
def interpretLineTcp (s : String) (reqId : Nat) : Except TcpRpcError Json :=
  match decodeResponse s with
  | none => .error .jsonError
  | some resp =>
      match resp.error with
      | some e => .error (.rpc e.code e.message e.data)
      | none =>
          if resp.id ≠ some reqId then
            .error (.invalidResponse (mismatchMsgTcp resp.id reqId))
          else
            match resp.result with
            | some r => .ok r
            | none => .error (.invalidResponse "Response has neither result nor error")

/-- `TcpRpcClient::call` (tcp.rs lines 169-220). A read that exceeds the
read timeout surfaces as the OS `io::Error`, converted by `?`/`#[from]`
into the `Io` variant — not `Timeout`. -/
def TcpRpcClient.call (c : TcpRpcClient) (method : String) (params : Option Json)
    (ch : TcpChannel) : Except TcpRpcError Json × TcpRpcClient × List Action :=
  let id := c.request_id
  let c2 := { c with request_id := (c.request_id + 1) % 2 ^ 64 }
  let _line := encodeRequest method params id
  if ¬ c.stream then (.error .notConnected, c2, [])
  else
    match ch.wr with
    | .ioError msg => (.error (.ioError .other msg), c2, [.tcpWrite])
    | .ok =>
        if ¬ c.reader then (.error .notConnected, c2, [.tcpWrite])
        else
          match ch.rd with
          | .ioError msg => (.error (.ioError .other msg), c2, [.tcpWrite, .tcpRead])
          | .timeoutExpired msg =>
              (.error (.ioError .timedOut msg), c2, [.tcpWrite, .tcpRead])
          | .line s => (interpretLineTcp s id, c2, [.tcpWrite, .tcpRead])

/-- `TcpRpcClient::ping` (tcp.rs lines 223-225). -/
def TcpRpcClient.ping (c : TcpRpcClient) (ch : TcpChannel) :
    Except TcpRpcError Json × TcpRpcClient × List Action :=
  c.call "system.ping" none ch

/-! ## Connection supervisor (`sidecar.rs`) -/

/-- `BridgeError` (sidecar.rs lines 10-29). -/
inductive BridgeError where
  | startFailed (msg : String)
  | notRunning
  | rpc (e : RpcError)
  | tcpRpc (e : TcpRpcError)
  | ioError (msg : String)
  | invalidConfig

/-- `BridgeState` (sidecar.rs lines 32-38). -/
inductive BridgeState where
  | Stopped
  | Starting
  | Running
  | Error
deriving DecidableEq

/-- `ConnectionMode` (sidecar.rs lines 41-47). -/
inductive ConnectionMode where
  | Subprocess
  | Tcp
deriving DecidableEq

/-- `ConnectionMode::detect` (sidecar.rs lines 57-65): TCP on Windows,
subprocess elsewhere. The `cfg!(windows)` compile-time test is a parameter. -/
def ConnectionMode.detect (isWindows : Bool) : ConnectionMode :=
  if isWindows then .Tcp else .Subprocess

/-- `TcpConfig` (sidecar.rs lines 69-82): `port` is a `u16`. -/
structure TcpConfig where
  host : String
  port : Nat
deriving DecidableEq

/-- `Default for TcpConfig`: `127.0.0.1:9876`. -/
def TcpConfig.default : TcpConfig := { host := "127.0.0.1", port := 9876 }

/-- `BridgeManager` (sidecar.rs lines 89-99): the state machine, the mode,
the stored child handle, both transport clients and their configuration. -/
structure BridgeManager where
  state : BridgeState
  mode : ConnectionMode
  process : Option Nat
  rpc_client : RpcClient
  python_path : Option String
  tcp_client : TcpRpcClient
  tcp_config : Option TcpConfig

/-- `BridgeManager::new` (sidecar.rs lines 103-113): `Stopped`, detected
mode, nothing stored, fresh clients. -/
def BridgeManager.new (isWindows : Bool) : BridgeManager :=
  { state := .Stopped, mode := .detect isWindows, process := none,
    rpc_client := RpcClient.new, python_path := none,
    tcp_client := TcpRpcClient.new, tcp_config := none }

/-- `BridgeManager::with_mode` (sidecar.rs lines 116-126). -/
def BridgeManager.with_mode (mode : ConnectionMode) : BridgeManager :=
  { state := .Stopped, mode := mode, process := none,
    rpc_client := RpcClient.new, python_path := none,
    tcp_client := TcpRpcClient.new, tcp_config := none }

/-- `BridgeManager::set_mode` (sidecar.rs lines 129-131). -/
def BridgeManager.set_mode (m : BridgeManager) (mode : ConnectionMode) : BridgeManager :=
  { m with mode := mode }

/-- `BridgeManager::get_mode`. -/
def BridgeManager.get_mode (m : BridgeManager) : ConnectionMode := m.mode

/-- `BridgeManager::set_tcp_config` (sidecar.rs lines 139-141). -/
def BridgeManager.set_tcp_config (m : BridgeManager) (host : String) (port : Nat) :
    BridgeManager :=
  { m with tcp_config := some { host := host, port := port } }

/-- `BridgeManager::set_python_path` (sidecar.rs lines 144-146). -/
def BridgeManager.set_python_path (m : BridgeManager) (path : String) : BridgeManager :=
  { m with python_path := some path }

/-- `BridgeManager::get_state` (sidecar.rs lines 149-151): a pure read. -/
def BridgeManager.get_state (m : BridgeManager) : BridgeState := m.state

/-- `BridgeManager::stop` (sidecar.rs lines 295-314): teardown of the
currently configured mode's transport only, then always `Stopped`. -/
def BridgeManager.stop (m : BridgeManager) : BridgeManager × List Action :=
  match m.mode with
  | .Subprocess =>
      let m1 := { m with rpc_client := m.rpc_client.disconnect }
      match m1.process with
      | some _ =>
          ({ m1 with process := none, state := .Stopped },
            [.pipeDisconnect, .killChild, .waitChild])
      | none => ({ m1 with state := .Stopped }, [.pipeDisconnect])
  | .Tcp =>
      ({ m with tcp_client := m.tcp_client.disconnect, state := .Stopped },
        [.tcpDisconnect])

/-- The environment's resolution of one subprocess start attempt. -/
structure SpawnWorld where
  spawn : Except String Nat
  stdinOk : Bool
  stdoutOk : Bool
  ping : PipeChannel

/-- The environment's resolution of one TCP start attempt. -/
structure TcpStartWorld where
  connect : Option TcpRpcError
  ping : TcpChannel

/-- `BridgeManager::start_subprocess` (sidecar.rs lines 167-250): no-op on
`Running`; set `Starting`; spawn; take the pipe handles; connect the stdio
client; store the child; liveness-ping; on ping failure `stop()` then
`Error`. A failure before the ping returns `StartFailed` with the state
left at `Starting` and no teardown. -/
def BridgeManager.start_subprocess (m : BridgeManager) (w : SpawnWorld) :
    Except BridgeError Unit × BridgeManager × List Action :=
  if m.state = .Running then (.ok (), m, [])
  else
    let m1 := { m with state := .Starting }
    match w.spawn with
    | .error e =>
        (.error (.startFailed ("Failed to spawn process: " ++ e)), m1, [])
    | .ok child =>
        if ¬ w.stdinOk then
          (.error (.startFailed "Failed to get stdin"), m1, [.spawned])
        else if ¬ w.stdoutOk then
          (.error (.startFailed "Failed to get stdout"), m1, [.spawned])
        else
          let m2 := { m1 with rpc_client := m1.rpc_client.connect,
                              process := some child }
          match m2.rpc_client.call "system.ping" none w.ping with
          | (.ok _, c2, acts) =>
              (.ok (), { m2 with rpc_client := c2, state := .Running },
                .spawned :: .pipeConnect :: acts)
          | (.error e, c2, acts) =>
              let m3 := { m2 with rpc_client := c2 }
              let (m4, sacts) := m3.stop
              (.error (.startFailed ("Ping failed: " ++ e.display)),
                { m4 with state := .Error },
                .spawned :: .pipeConnect :: (acts ++ sacts))

/-- `BridgeManager::start_tcp` (sidecar.rs lines 253-292): no-op on
`Running`; set `Starting`; connect (default config when none is set);
liveness-ping; on ping failure disconnect the socket and set `Error`. A
connect failure returns `StartFailed` with the state left at `Starting`. -/
def BridgeManager.start_tcp (m : BridgeManager) (w : TcpStartWorld) :
    Except BridgeError Unit × BridgeManager × List Action :=
  if m.state = .Running then (.ok (), m, [])
  else
    let m1 := { m with state := .Starting }
    let _cfg := m1.tcp_config.getD TcpConfig.default
    match m1.tcp_client.connect w.connect with
    | (.error e, c2) =>
        (.error (.startFailed ("TCP connection failed: " ++ e.display)),
          { m1 with tcp_client := c2 }, [])
    | (.ok _, c2) =>
        let m2 := { m1 with tcp_client := c2 }
        match m2.tcp_client.ping w.ping with
        | (.ok _, c3, acts) =>
            (.ok (), { m2 with tcp_client := c3, state := .Running },
              .tcpConnect :: acts)
        | (.error e, c3, acts) =>
            (.error (.startFailed ("Ping failed: " ++ e.display)),
              { m2 with tcp_client := c3.disconnect, state := .Error },
              .tcpConnect :: (acts ++ [.tcpDisconnect]))

/-- `BridgeManager::start` (sidecar.rs lines 157-164): dispatch on mode. -/
def BridgeManager.start (m : BridgeManager) (wSub : SpawnWorld) (wTcp : TcpStartWorld) :
    Except BridgeError Unit × BridgeManager × List Action :=
  match m.mode with
  | .Subprocess => m.start_subprocess wSub
  | .Tcp => m.start_tcp wTcp

/-- The transport errors on which `BridgeManager::call` (sidecar.rs line
328) demotes state: `matches!(e, RpcError::Io(_) | RpcError::NotConnected)`. -/
def isChannelDeadPipe : RpcError → Bool
  | .ioError _ _ => true
  | .notConnected => true
  | _ => false

/-- sidecar.rs line 337: `matches!(e, TcpRpcError::Io(_) |
TcpRpcError::NotConnected)`. -/
def isChannelDeadTcp : TcpRpcError → Bool
  | .ioError _ _ => true
  | .notConnected => true
  | _ => false

/-- The channel behavior available to one `call`, per transport. -/
structure CallWorld where
  pipe : PipeChannel
  tcp : TcpChannel

/-- `BridgeManager::call` (sidecar.rs lines 317-344): `NotRunning` unless
the state is `Running`; otherwise dispatch to the active transport; on a
channel-dead error set state to `Error` before wrapping and propagating. -/
def BridgeManager.call (m : BridgeManager) (method : String) (params : Option Json)
    (w : CallWorld) : Except BridgeError Json × BridgeManager × List Action :=
  if m.get_state ≠ .Running then (.error .notRunning, m, [])
  else
    match m.mode with
    | .Subprocess =>
        match m.rpc_client.call method params w.pipe with
        | (.ok v, c2, acts) => (.ok v, { m with rpc_client := c2 }, acts)
        | (.error e, c2, acts) =>
            let m2 := { m with rpc_client := c2 }
            let m3 := if isChannelDeadPipe e then { m2 with state := .Error } else m2
            (.error (.rpc e), m3, acts)
    | .Tcp =>
        match m.tcp_client.call method params w.tcp with
        | (.ok v, c2, acts) => (.ok v, { m with tcp_client := c2 }, acts)
        | (.error e, c2, acts) =>
            let m2 := { m with tcp_client := c2 }
            let m3 := if isChannelDeadTcp e then { m2 with state := .Error } else m2
            (.error (.tcpRpc e), m3, acts)

/-- `BridgeManager::is_tcp_mode`. -/
def BridgeManager.is_tcp_mode (m : BridgeManager) : Bool := m.mode = .Tcp

/-- `BridgeManager::is_subprocess_mode`. -/
def BridgeManager.is_subprocess_mode (m : BridgeManager) : Bool := m.mode = .Subprocess

/-! ## Call sequences (for the id-monotonicity property) -/

/-- The ids a sequence of stdio calls allocates (each call reads the counter
by `fetch_add` at rpc.rs line 95; the read value is `request_id` before the
step), one call per `(method, params, channel)` triple. -/
def pipeCallIds (c : RpcClient) :
    List (String × Option Json × PipeChannel) → List Nat × RpcClient
  | [] => ([], c)
  | (method, params, ch) :: rest =>
      let idNow := c.request_id
      let step := c.call method params ch
      let tail := pipeCallIds step.2.1 rest
      (idNow :: tail.1, tail.2)

/-- The TCP analogue of `pipeCallIds` (tcp.rs line 170). -/
def tcpCallIds (c : TcpRpcClient) :
    List (String × Option Json × TcpChannel) → List Nat × TcpRpcClient
  | [] => ([], c)
  | (method, params, ch) :: rest =>
      let idNow := c.request_id
      let step := c.call method params ch
      let tail := tcpCallIds step.2.1 rest
      (idNow :: tail.1, tail.2)

/-! ## Shared facts about the supervisor -/

/-- `call` refuses any state other than `Running`, touching nothing. -/
theorem call_guard (m : BridgeManager) (method : String) (params : Option Json)
    (w : CallWorld) (h : m.state ≠ BridgeState.Running) :
    m.call method params w = (.error .notRunning, m, []) := by
  unfold BridgeManager.call BridgeManager.get_state
  rw [if_pos h]

/-! ## The claims -/

/-- C7: a freshly constructed supervisor (either detected mode) is in
`Stopped`, and every `call` made in a state other than `Running` fails
immediately with `NotRunning`, leaves the supervisor untouched, and
performs no observable action — no write, read, connect or spawn. -/
theorem c7_fresh_stopped_and_nonrunning_call_is_guarded :
    (∀ isWindows : Bool, (BridgeManager.new isWindows).state = BridgeState.Stopped) ∧
    (∀ (m : BridgeManager) (method : String) (params : Option Json) (w : CallWorld),
      m.state ≠ BridgeState.Running →
      m.call method params w = (.error .notRunning, m, [])) :=
  ⟨fun _ => rfl, fun m method params w h => call_guard m method params w h⟩

/-- Witness for C7 at a concrete `Stopped` supervisor. -/
theorem c7_witness :
    (BridgeManager.new false).state = BridgeState.Stopped ∧
    (BridgeManager.with_mode .Subprocess).state ≠ BridgeState.Running ∧
    (BridgeManager.with_mode .Subprocess).call "system.ping" none
        ⟨⟨.ok, .line ""⟩, ⟨.ok, .line ""⟩⟩
      = (.error .notRunning, BridgeManager.with_mode .Subprocess, []) :=
  ⟨c7_fresh_stopped_and_nonrunning_call_is_guarded.1 false, by decide,
   c7_fresh_stopped_and_nonrunning_call_is_guarded.2
     (BridgeManager.with_mode .Subprocess) "system.ping" none
     ⟨⟨.ok, .line ""⟩, ⟨.ok, .line ""⟩⟩ (by decide)⟩

/-- C10: when the configured mode is TCP, `stop` leaves the stored child
process field unchanged — the child is neither killed nor waited on — while
still transitioning the state to `Stopped`. -/
theorem c10_stop_in_tcp_mode_leaves_child_untouched (m : BridgeManager)
    (h : m.mode = ConnectionMode.Tcp) :
    (m.stop).1.process = m.process ∧
    (m.stop).1.state = BridgeState.Stopped ∧
    Action.killChild ∉ (m.stop).2 ∧
    Action.waitChild ∉ (m.stop).2 := by
  obtain ⟨st, mo, pr, rc, pp, tc, cfg⟩ := m
  dsimp only at h
  subst h
  unfold BridgeManager.stop
  dsimp only
  exact ⟨rfl, rfl, by decide, by decide⟩

/-- Witness for C10: a supervisor holding a child handle from a subprocess
start whose mode has since been set to TCP. -/
theorem c10_witness :
    ({ BridgeManager.with_mode .Subprocess with process := some 7 }.set_mode
        ConnectionMode.Tcp).mode = ConnectionMode.Tcp ∧
    (({ BridgeManager.with_mode .Subprocess with process := some 7 }.set_mode
        ConnectionMode.Tcp).stop).1.process = some 7 ∧
    (({ BridgeManager.with_mode .Subprocess with process := some 7 }.set_mode
        ConnectionMode.Tcp).stop).1.state = BridgeState.Stopped := by
  refine ⟨rfl, ?_, ?_⟩
  · have h := c10_stop_in_tcp_mode_leaves_child_untouched
      ({ BridgeManager.with_mode .Subprocess with process := some 7 }.set_mode
        ConnectionMode.Tcp) rfl
    exact h.1
  · have h := c10_stop_in_tcp_mode_leaves_child_untouched
      ({ BridgeManager.with_mode .Subprocess with process := some 7 }.set_mode
        ConnectionMode.Tcp) rfl
    exact h.2.1

/-- Every stdio call, successful or not, advances the counter by exactly one
(mod `2^64`). -/
theorem rpc_call_advances (c : RpcClient) (method : String) (params : Option Json)
    (ch : PipeChannel) :
    (RpcClient.call c method params ch).2.1.request_id = (c.request_id + 1) % 2 ^ 64 := by
  obtain ⟨si, so, rid⟩ := c
  obtain ⟨wr, rd⟩ := ch
  cases si <;> cases so <;> cases wr <;> cases rd <;> rfl

/-- The TCP analogue of `rpc_call_advances`. -/
theorem tcp_call_advances (c : TcpRpcClient) (method : String) (params : Option Json)
    (ch : TcpChannel) :
    (TcpRpcClient.call c method params ch).2.1.request_id = (c.request_id + 1) % 2 ^ 64 := by
  obtain ⟨si, so, rid⟩ := c
  obtain ⟨wr, rd⟩ := ch
  cases si <;> cases so <;> cases wr <;> cases rd <;> rfl

/-- C9: the request-id counter of either transport client starts at 1, every
call (including a failed one) allocates the current counter value and
advances it by one, so the ids of a call sequence are consecutive —
strictly increasing — as long as the `u64` counter does not wrap; and
neither `disconnect` nor a subsequent `connect` resets the counter. -/
theorem c9_request_ids_consecutive :
    (RpcClient.new.request_id = 1 ∧ TcpRpcClient.new.request_id = 1) ∧
    (∀ c : RpcClient, (c.connect).request_id = c.request_id ∧
        (c.disconnect).request_id = c.request_id) ∧
    (∀ (c : TcpRpcClient) (o : Option TcpRpcError),
        (c.connect o).2.request_id = c.request_id ∧
        (c.disconnect).request_id = c.request_id) ∧
    (∀ (c : RpcClient) (calls : List (String × Option Json × PipeChannel)),
        c.request_id + calls.length ≤ 2 ^ 64 →
        (pipeCallIds c calls).1 = List.range' c.request_id calls.length) ∧
    (∀ (c : TcpRpcClient) (calls : List (String × Option Json × TcpChannel)),
        c.request_id + calls.length ≤ 2 ^ 64 →
        (tcpCallIds c calls).1 = List.range' c.request_id calls.length) := by
  refine ⟨⟨rfl, rfl⟩, fun c => ⟨rfl, rfl⟩, ?_, ?_, ?_⟩
  · intro c o
    cases o <;> exact ⟨rfl, rfl⟩
  · intro c calls
    induction calls generalizing c with
    | nil => intro _; rfl
    | cons x rest ih =>
        intro hle
        obtain ⟨method, params, ch⟩ := x
        simp only [pipeCallIds, List.length_cons] at hle ⊢
        rw [List.range'_succ]
        by_cases hwrap : c.request_id + 1 < 2 ^ 64
        · have hmod : (c.request_id + 1) % 2 ^ 64 = c.request_id + 1 :=
            Nat.mod_eq_of_lt hwrap
          have hstep := rpc_call_advances c method params ch
          have := ih (RpcClient.call c method params ch).2.1
            (by rw [hstep, hmod]; omega)
          rw [this, hstep, hmod]
        · have hlen : rest.length = 0 := by omega
          rw [List.length_eq_zero.mp hlen] at hle ⊢
          rfl
  · intro c calls
    induction calls generalizing c with
    | nil => intro _; rfl
    | cons x rest ih =>
        intro hle
        obtain ⟨method, params, ch⟩ := x
        simp only [tcpCallIds, List.length_cons] at hle ⊢
        rw [List.range'_succ]
        by_cases hwrap : c.request_id + 1 < 2 ^ 64
        · have hmod : (c.request_id + 1) % 2 ^ 64 = c.request_id + 1 :=
            Nat.mod_eq_of_lt hwrap
          have hstep := tcp_call_advances c method params ch
          have := ih (TcpRpcClient.call c method params ch).2.1
            (by rw [hstep, hmod]; omega)
          rw [this, hstep, hmod]
        · have hlen : rest.length = 0 := by omega
          rw [List.length_eq_zero.mp hlen] at hle ⊢
          rfl

/-- A stdio call on a connected client over a well-behaved channel delivers
the interpreted line. -/
theorem rpc_call_line (c : RpcClient) (method : String) (params : Option Json)
    (s : String) (hs : c.stdin = true) (ho : c.stdout = true) :
    RpcClient.call c method params ⟨.ok, .line s⟩
      = (interpretLinePipe s c.request_id,
         { c with request_id := (c.request_id + 1) % 2 ^ 64 },
         [.pipeWrite, .pipeRead]) := by
  obtain ⟨si, so, rid⟩ := c
  dsimp only at hs ho
  subst hs; subst ho
  rfl

/-- The TCP analogue of `rpc_call_line`. -/
theorem tcp_call_line (c : TcpRpcClient) (method : String) (params : Option Json)
    (s : String) (hs : c.stream = true) (ho : c.reader = true) :
    TcpRpcClient.call c method params ⟨.ok, .line s⟩
      = (interpretLineTcp s c.request_id,
         { c with request_id := (c.request_id + 1) % 2 ^ 64 },
         [.tcpWrite, .tcpRead]) := by
  obtain ⟨si, so, rid⟩ := c
  dsimp only at hs ho
  subst hs; subst ho
  rfl

/-- Interpreting a received line never produces the `Timeout` variant. -/
theorem interpretLineTcp_ne_timeout (s : String) (reqId : Nat) :
    interpretLineTcp s reqId ≠ .error .timeout := by
  unfold interpretLineTcp
  split
  · simp
  · split
    · simp
    · split
      · simp
      · split <;> simp

/-- C5 (the behavior the code actually has): a TCP read that exceeds the
read timeout surfaces as the generic `Io` error — the OS timeout error
converted by `?`/`#[from]` — and the declared `Timeout` variant is never
produced by `call` under any channel behavior. -/
theorem c5_read_timeout_yields_io_not_timeout :
    (∀ (rid : Nat) (method : String) (params : Option Json) (msg : String),
        (TcpRpcClient.call ⟨true, true, rid⟩ method params
            ⟨.ok, .timeoutExpired msg⟩).1
          = .error (.ioError .timedOut msg) ∧
        TcpRpcError.ioError .timedOut msg ≠ .timeout) ∧
    (∀ (c : TcpRpcClient) (method : String) (params : Option Json) (ch : TcpChannel),
        (c.call method params ch).1 ≠ .error .timeout) := by
  constructor
  · intro rid method params msg
    exact ⟨rfl, by simp⟩
  · intro c method params ch
    obtain ⟨si, so, rid⟩ := c
    obtain ⟨wr, rd⟩ := ch
    cases si <;> cases so <;> cases wr <;> cases rd <;>
      first
        | exact interpretLineTcp_ne_timeout _ _
        | simp [TcpRpcClient.call]

/-- A TCP call whose read exceeds the read timeout: the OS error converted
into the `Io` variant. -/
theorem tcp_call_timeout (c : TcpRpcClient) (method : String) (params : Option Json)
    (msg : String) (hs : c.stream = true) (ho : c.reader = true) :
    TcpRpcClient.call c method params ⟨.ok, .timeoutExpired msg⟩
      = (.error (.ioError .timedOut msg),
         { c with request_id := (c.request_id + 1) % 2 ^ 64 },
         [.tcpWrite, .tcpRead]) := by
  obtain ⟨si, so, rid⟩ := c
  dsimp only at hs ho
  subst hs; subst ho
  rfl

/-- C2: a channel-level transport failure during a `Running` call — an I/O
error (the form a timed-out TCP read takes) or not-connected — demotes the
state to `Error` before the error propagates, and the immediately
following call fails with `NotRunning` without reaching the transport. -/
theorem c2_channel_error_demotes_then_notrunning :
    ∀ (m : BridgeManager) (w : CallWorld) (method : String) (params : Option Json),
      m.state = BridgeState.Running →
      ((m.mode = ConnectionMode.Subprocess →
        ∀ e c2 acts, m.rpc_client.call method params w.pipe = (.error e, c2, acts) →
          ((∃ k msg, e = .ioError k msg) ∨ e = .notConnected) →
          m.call method params w
            = (.error (.rpc e), { m with rpc_client := c2, state := .Error }, acts) ∧
          (∀ (method2 : String) (params2 : Option Json) (w2 : CallWorld),
            BridgeManager.call { m with rpc_client := c2, state := .Error }
                method2 params2 w2
              = (.error .notRunning,
                 { m with rpc_client := c2, state := .Error }, []))) ∧
      (m.mode = ConnectionMode.Tcp →
        ∀ e c2 acts, m.tcp_client.call method params w.tcp = (.error e, c2, acts) →
          ((∃ k msg, e = .ioError k msg) ∨ e = .notConnected) →
          m.call method params w
            = (.error (.tcpRpc e), { m with tcp_client := c2, state := .Error }, acts) ∧
          (∀ (method2 : String) (params2 : Option Json) (w2 : CallWorld),
            BridgeManager.call { m with tcp_client := c2, state := .Error }
                method2 params2 w2
              = (.error .notRunning,
                 { m with tcp_client := c2, state := .Error }, []))) ∧
      (m.mode = ConnectionMode.Tcp → m.tcp_client.stream = true →
        m.tcp_client.reader = true →
        ∀ msg : String, w.tcp = ⟨.ok, .timeoutExpired msg⟩ →
        (m.call method params w).1 = .error (.tcpRpc (.ioError .timedOut msg)) ∧
        (m.call method params w).2.1.state = BridgeState.Error)) := by
  intro m w method params hrun
  refine ⟨?_, ?_, ?_⟩
  · intro hmode e c2 acts hcall hkind
    have hdead : isChannelDeadPipe e = true := by
      rcases hkind with ⟨k, msg, rfl⟩ | rfl <;> rfl
    constructor
    · unfold BridgeManager.call BridgeManager.get_state
      rw [if_neg (by rw [hrun]; simp), hmode]
      dsimp only
      rw [hcall]
      dsimp only
      rw [hdead]
      rfl
    · intro method2 params2 w2
      exact call_guard _ method2 params2 w2 (by simp)
  · intro hmode e c2 acts hcall hkind
    have hdead : isChannelDeadTcp e = true := by
      rcases hkind with ⟨k, msg, rfl⟩ | rfl <;> rfl
    constructor
    · unfold BridgeManager.call BridgeManager.get_state
      rw [if_neg (by rw [hrun]; simp), hmode]
      dsimp only
      rw [hcall]
      dsimp only
      rw [hdead]
      rfl
    · intro method2 params2 w2
      exact call_guard _ method2 params2 w2 (by simp)
  · intro hmode hs ho msg htcp
    have hcall := tcp_call_timeout m.tcp_client method params msg hs ho
    have hmain : m.call method params w
        = (.error (.tcpRpc (.ioError .timedOut msg)),
           { m with
               tcp_client :=
                 { m.tcp_client with
                     request_id := (m.tcp_client.request_id + 1) % 2 ^ 64 },
               state := .Error },
           [.tcpWrite, .tcpRead]) := by
      unfold BridgeManager.call BridgeManager.get_state
      rw [if_neg (by rw [hrun]; simp), hmode]
      dsimp only
      rw [htcp, hcall]
      rfl
    exact ⟨by rw [hmain], by rw [hmain]⟩

/-- Witness for C2: a broken-pipe read on a concrete `Running` subprocess
supervisor demotes to `Error`; the follow-up call fails `NotRunning`. -/
theorem c2_witness :
    ({ BridgeManager.with_mode .Subprocess with
        state := .Running, rpc_client := ⟨true, true, 1⟩ } : BridgeManager).call
        "config.get" none ⟨⟨.ok, .ioError "broken pipe"⟩, ⟨.ok, .line ""⟩⟩
      = (.error (.rpc (.ioError .other "broken pipe")),
         { BridgeManager.with_mode .Subprocess with
             state := .Error, rpc_client := ⟨true, true, 2⟩ },
         [.pipeWrite, .pipeRead]) ∧
    BridgeManager.call
        { BridgeManager.with_mode .Subprocess with
            state := .Error, rpc_client := ⟨true, true, 2⟩ }
        "config.get" none ⟨⟨.ok, .line ""⟩, ⟨.ok, .line ""⟩⟩
      = (.error .notRunning,
         { BridgeManager.with_mode .Subprocess with
             state := .Error, rpc_client := ⟨true, true, 2⟩ }, []) := by
  have h := (c2_channel_error_demotes_then_notrunning
    { BridgeManager.with_mode .Subprocess with
        state := .Running, rpc_client := ⟨true, true, 1⟩ }
    ⟨⟨.ok, .ioError "broken pipe"⟩, ⟨.ok, .line ""⟩⟩ "config.get" none rfl).1
    rfl (.ioError .other "broken pipe") ⟨true, true, 2⟩ [.pipeWrite, .pipeRead]
    rfl (Or.inl ⟨.other, "broken pipe", rfl⟩)
  exact ⟨h.1, h.2 "config.get" none ⟨⟨.ok, .line ""⟩, ⟨.ok, .line ""⟩⟩⟩

/-- C3 counterexample: a `Running` subprocess supervisor whose transport
reads malformed JSON propagates a decode error but leaves the state at
`Running` — the claim says it transitions to `Error`. -/
theorem c3_counterexample :
    (BridgeManager.call
        { BridgeManager.with_mode .Subprocess with
            state := .Running, rpc_client := ⟨true, true, 1⟩ }
        "config.get" none ⟨⟨.ok, .line "not json"⟩, ⟨.ok, .line ""⟩⟩).1
      = .error (.rpc .jsonError) ∧
    (BridgeManager.call
        { BridgeManager.with_mode .Subprocess with
            state := .Running, rpc_client := ⟨true, true, 1⟩ }
        "config.get" none ⟨⟨.ok, .line "not json"⟩, ⟨.ok, .line ""⟩⟩).2.1.state
      = BridgeState.Running ∧
    BridgeState.Running ≠ BridgeState.Error :=
  ⟨rfl, rfl, by decide⟩

/-- C3 amended: a decode (`Json`) or id-mismatch (`InvalidResponse`)
transport error propagates to the caller wrapped unchanged, but the state
is NOT demoted: it stays exactly as it was (`Running`); only `Io` and
`NotConnected` demote (sidecar.rs lines 328, 337). -/
theorem c3_amended_decode_errors_do_not_demote :
    ∀ (m : BridgeManager) (w : CallWorld) (method : String) (params : Option Json),
      m.state = BridgeState.Running →
      ((m.mode = ConnectionMode.Subprocess →
        ∀ e c2 acts, m.rpc_client.call method params w.pipe = (.error e, c2, acts) →
          (e = .jsonError ∨ ∃ msg, e = .invalidResponse msg) →
          m.call method params w = (.error (.rpc e), { m with rpc_client := c2 }, acts) ∧
          (m.call method params w).2.1.state = BridgeState.Running) ∧
      (m.mode = ConnectionMode.Tcp →
        ∀ e c2 acts, m.tcp_client.call method params w.tcp = (.error e, c2, acts) →
          (e = .jsonError ∨ ∃ msg, e = .invalidResponse msg) →
          m.call method params w = (.error (.tcpRpc e), { m with tcp_client := c2 }, acts) ∧
          (m.call method params w).2.1.state = BridgeState.Running)) := by
  intro m w method params hrun
  constructor
  · intro hmode e c2 acts hcall hkind
    have hdead : isChannelDeadPipe e = false := by
      rcases hkind with rfl | ⟨msg, rfl⟩ <;> rfl
    have hmain : m.call method params w
        = (.error (.rpc e), { m with rpc_client := c2 }, acts) := by
      unfold BridgeManager.call BridgeManager.get_state
      rw [if_neg (by rw [hrun]; simp), hmode]
      dsimp only
      rw [hcall]
      dsimp only
      rw [hdead]
      rfl
    exact ⟨hmain, by rw [hmain]; exact hrun⟩
  · intro hmode e c2 acts hcall hkind
    have hdead : isChannelDeadTcp e = false := by
      rcases hkind with rfl | ⟨msg, rfl⟩ <;> rfl
    have hmain : m.call method params w
        = (.error (.tcpRpc e), { m with tcp_client := c2 }, acts) := by
      unfold BridgeManager.call BridgeManager.get_state
      rw [if_neg (by rw [hrun]; simp), hmode]
      dsimp only
      rw [hcall]
      dsimp only
      rw [hdead]
      rfl
    exact ⟨hmain, by rw [hmain]; exact hrun⟩

/-- Witness for the amended C3 at the malformed-JSON input. -/
theorem c3_amended_witness :
    BridgeManager.call
        { BridgeManager.with_mode .Subprocess with
            state := .Running, rpc_client := ⟨true, true, 1⟩ }
        "config.get" none ⟨⟨.ok, .line "not json"⟩, ⟨.ok, .line ""⟩⟩
      = (.error (.rpc .jsonError),
         { BridgeManager.with_mode .Subprocess with
             state := .Running, rpc_client := ⟨true, true, 2⟩ },
         [.pipeWrite, .pipeRead]) :=
  ((c3_amended_decode_errors_do_not_demote
      { BridgeManager.with_mode .Subprocess with
          state := .Running, rpc_client := ⟨true, true, 1⟩ }
      ⟨⟨.ok, .line "not json"⟩, ⟨.ok, .line ""⟩⟩ "config.get" none rfl).1
    rfl .jsonError ⟨true, true, 2⟩ [.pipeWrite, .pipeRead] rfl (Or.inl rfl)).1

/-- C4: a structured application error decoded from the response leaves the
state at `Running` (no demotion) and reaches the caller carrying exactly
the backend's code, message and optional data. -/
theorem c4_app_error_preserves_state_and_payload :
    ∀ (m : BridgeManager) (w : CallWorld) (method : String) (params : Option Json),
      m.state = BridgeState.Running →
      ((m.mode = ConnectionMode.Subprocess → ∀ s resp eo,
          m.rpc_client.stdin = true → m.rpc_client.stdout = true →
          w.pipe = ⟨.ok, .line s⟩ →
          decodeResponse s = some resp → resp.error = some eo →
          m.call method params w
            = (.error (.rpc (.rpc eo.code eo.message eo.data)),
               { m with rpc_client :=
                   { m.rpc_client with
                       request_id := (m.rpc_client.request_id + 1) % 2 ^ 64 } },
               [.pipeWrite, .pipeRead]) ∧
          (m.call method params w).2.1.state = BridgeState.Running) ∧
      (m.mode = ConnectionMode.Tcp → ∀ s resp eo,
          m.tcp_client.stream = true → m.tcp_client.reader = true →
          w.tcp = ⟨.ok, .line s⟩ →
          decodeResponse s = some resp → resp.error = some eo →
          m.call method params w
            = (.error (.tcpRpc (.rpc eo.code eo.message eo.data)),
               { m with tcp_client :=
                   { m.tcp_client with
                       request_id := (m.tcp_client.request_id + 1) % 2 ^ 64 } },
               [.tcpWrite, .tcpRead]) ∧
          (m.call method params w).2.1.state = BridgeState.Running)) := by
  intro m w method params hrun
  constructor
  · intro hmode s resp eo hs ho hpipe hdec herr
    have hline := rpc_call_line m.rpc_client method params s hs ho
    have hinterp : interpretLinePipe s m.rpc_client.request_id
        = .error (.rpc eo.code eo.message eo.data) := by
      unfold interpretLinePipe
      rw [hdec]
      dsimp only
      rw [herr]
    have hmain : m.call method params w
        = (.error (.rpc (.rpc eo.code eo.message eo.data)),
           { m with rpc_client :=
               { m.rpc_client with
                   request_id := (m.rpc_client.request_id + 1) % 2 ^ 64 } },
           [.pipeWrite, .pipeRead]) := by
      unfold BridgeManager.call BridgeManager.get_state
      rw [if_neg (by rw [hrun]; simp), hmode]
      dsimp only
      rw [hpipe, hline, hinterp]
      dsimp only
      rfl
    exact ⟨hmain, by rw [hmain]; exact hrun⟩
  · intro hmode s resp eo hs ho htcp hdec herr
    have hline := tcp_call_line m.tcp_client method params s hs ho
    have hinterp : interpretLineTcp s m.tcp_client.request_id
        = .error (.rpc eo.code eo.message eo.data) := by
      unfold interpretLineTcp
      rw [hdec]
      dsimp only
      rw [herr]
    have hmain : m.call method params w
        = (.error (.tcpRpc (.rpc eo.code eo.message eo.data)),
           { m with tcp_client :=
               { m.tcp_client with
                   request_id := (m.tcp_client.request_id + 1) % 2 ^ 64 } },
           [.tcpWrite, .tcpRead]) := by
      unfold BridgeManager.call BridgeManager.get_state
      rw [if_neg (by rw [hrun]; simp), hmode]
      dsimp only
      rw [htcp, hline, hinterp]
      dsimp only
      rfl
    exact ⟨hmain, by rw [hmain]; exact hrun⟩

/-- Witness for C4: the spec's own example — the backend rejects the call
with `-32601 Method not found` for request id 1; the caller sees exactly
that code and message and the state stays `Running`. -/
theorem c4_witness :
    decodeResponse ("\x7b\"jsonrpc\":\"2.0\",\"error\":\x7b\"code\":-32601,"
        ++ "\"message\":\"Method not found\"\x7d,\"id\":1\x7d")
      = some { jsonrpc := "2.0", result := none,
               error := some { code := -32601, message := "Method not found",
                               data := none },
               id := some 1 } ∧
    BridgeManager.call
        { BridgeManager.with_mode .Subprocess with
            state := .Running, rpc_client := ⟨true, true, 1⟩ }
        "config.get" none
        ⟨⟨.ok, .line ("\x7b\"jsonrpc\":\"2.0\",\"error\":\x7b\"code\":-32601,"
            ++ "\"message\":\"Method not found\"\x7d,\"id\":1\x7d")⟩, ⟨.ok, .line ""⟩⟩
      = (.error (.rpc (.rpc (-32601) "Method not found" none)),
         { BridgeManager.with_mode .Subprocess with
             state := .Running, rpc_client := ⟨true, true, 2⟩ },
         [.pipeWrite, .pipeRead]) := by
  refine ⟨rfl, ?_⟩
  have h := (c4_app_error_preserves_state_and_payload
    { BridgeManager.with_mode .Subprocess with
        state := .Running, rpc_client := ⟨true, true, 1⟩ }
    ⟨⟨.ok, .line ("\x7b\"jsonrpc\":\"2.0\",\"error\":\x7b\"code\":-32601,"
        ++ "\"message\":\"Method not found\"\x7d,\"id\":1\x7d")⟩, ⟨.ok, .line ""⟩⟩
    "config.get" none rfl).1 rfl
    ("\x7b\"jsonrpc\":\"2.0\",\"error\":\x7b\"code\":-32601,"
        ++ "\"message\":\"Method not found\"\x7d,\"id\":1\x7d")
    { jsonrpc := "2.0", result := none,
      error := some { code := -32601, message := "Method not found", data := none },
      id := some 1 }
    { code := -32601, message := "Method not found", data := none }
    rfl rfl rfl rfl rfl
  exact h.1

/-- C6 counterexample: a decoded response whose id is 2 while the request id
is 1, but which also carries an error object, yields the structured `Rpc`
error — not `InvalidResponse` — because the error check precedes the id
check (rpc.rs lines 123-138; same order in tcp.rs). -/
theorem c6_counterexample :
    (RpcClient.call ⟨true, true, 1⟩ "config.get" none
        ⟨.ok, .line ("\x7b\"jsonrpc\":\"2.0\",\"error\":\x7b\"code\":-32601,"
            ++ "\"message\":\"Method not found\"\x7d,\"id\":2\x7d")⟩).1
      = .error (.rpc (-32601) "Method not found" none) ∧
    (RpcClient.call ⟨true, true, 1⟩ "config.get" none
        ⟨.ok, .line ("\x7b\"jsonrpc\":\"2.0\",\"error\":\x7b\"code\":-32601,"
            ++ "\"message\":\"Method not found\"\x7d,\"id\":2\x7d")⟩).1
      ≠ .error (.invalidResponse (mismatchMsgPipe (some 2) 1)) := by
  constructor
  · rfl
  · intro h
    rw [show (RpcClient.call ⟨true, true, 1⟩ "config.get" none
        ⟨.ok, .line ("\x7b\"jsonrpc\":\"2.0\",\"error\":\x7b\"code\":-32601,"
            ++ "\"message\":\"Method not found\"\x7d,\"id\":2\x7d")⟩).1
      = .error (.rpc (-32601) "Method not found" none) from rfl] at h
    simp at h

/-- C6 amended: for both transports, a successfully decoded response that
carries no error object and whose id differs from the request's id fails
with `InvalidResponse`, and the message embeds both the request id and the
response id (the stdio client prints a missing response id as `0`, the TCP
client debug-prints the `Option`). -/
theorem c6_amended_id_mismatch_yields_invalid_response :
    ∀ (s : String) (resp : RpcResponse),
      decodeResponse s = some resp → resp.error = none →
      ((∀ (c : RpcClient) (method : String) (params : Option Json),
          c.stdin = true → c.stdout = true → resp.id ≠ some c.request_id →
          (c.call method params ⟨.ok, .line s⟩).1
            = .error (.invalidResponse (mismatchMsgPipe resp.id c.request_id)) ∧
          (∃ a, mismatchMsgPipe resp.id c.request_id
              = a ++ toString c.request_id) ∧
          (∀ j, resp.id = some j → ∃ a b,
            mismatchMsgPipe resp.id c.request_id = a ++ (toString j ++ b))) ∧
       (∀ (c : TcpRpcClient) (method : String) (params : Option Json),
          c.stream = true → c.reader = true → resp.id ≠ some c.request_id →
          (c.call method params ⟨.ok, .line s⟩).1
            = .error (.invalidResponse (mismatchMsgTcp resp.id c.request_id)) ∧
          (∃ a, mismatchMsgTcp resp.id c.request_id
              = a ++ toString c.request_id) ∧
          (∀ j, resp.id = some j → ∃ a b,
            mismatchMsgTcp resp.id c.request_id = a ++ (toString j ++ b)))) := by
  intro s resp hdec herr
  constructor
  · intro c method params hs ho hne
    refine ⟨?_, ⟨"Response ID " ++ toString (resp.id.getD 0)
        ++ " doesn\x27t match request ID ", rfl⟩, ?_⟩
    · rw [rpc_call_line c method params s hs ho]
      unfold interpretLinePipe
      rw [hdec]
      dsimp only
      rw [herr]
      dsimp only
      rw [if_pos hne]
    · intro j hj
      refine ⟨"Response ID ", " doesn\x27t match request ID "
          ++ toString c.request_id, ?_⟩
      rw [mismatchMsgPipe, hj]
      dsimp only [Option.getD]
      rw [String.append_assoc, String.append_assoc]
  · intro c method params hs ho hne
    refine ⟨?_, ⟨"Response ID " ++ optDebug resp.id
        ++ " doesn\x27t match request ID ", rfl⟩, ?_⟩
    · rw [tcp_call_line c method params s hs ho]
      unfold interpretLineTcp
      rw [hdec]
      dsimp only
      rw [herr]
      dsimp only
      rw [if_pos hne]
    · intro j hj
      refine ⟨"Response ID " ++ "Some(", ")"
          ++ (" doesn\x27t match request ID " ++ toString c.request_id), ?_⟩
      rw [mismatchMsgTcp, hj]
      unfold optDebug
      rw [String.append_assoc, String.append_assoc, String.append_assoc,
        String.append_assoc, String.append_assoc]

/-- Witness for the amended C6: the spec's own example, a result response
with id 2 answering request id 1, on both transports. -/
theorem c6_amended_witness :
    decodeResponse "\x7b\"jsonrpc\":\"2.0\",\"result\":1,\"id\":2\x7d"
      = some { jsonrpc := "2.0", result := some (.num 1), error := none,
               id := some 2 } ∧
    (RpcClient.call ⟨true, true, 1⟩ "config.get" none
        ⟨.ok, .line "\x7b\"jsonrpc\":\"2.0\",\"result\":1,\"id\":2\x7d"⟩).1
      = .error (.invalidResponse "Response ID 2 doesn\x27t match request ID 1") ∧
    (TcpRpcClient.call ⟨true, true, 1⟩ "config.get" none
        ⟨.ok, .line "\x7b\"jsonrpc\":\"2.0\",\"result\":1,\"id\":2\x7d"⟩).1
      = .error (.invalidResponse
          "Response ID Some(2) doesn\x27t match request ID 1") := by
  have h := c6_amended_id_mismatch_yields_invalid_response
    "\x7b\"jsonrpc\":\"2.0\",\"result\":1,\"id\":2\x7d"
    { jsonrpc := "2.0", result := some (.num 1), error := none, id := some 2 }
    rfl rfl
  refine ⟨rfl, ?_, ?_⟩
  · exact (h.1 ⟨true, true, 1⟩ "config.get" none rfl rfl (by decide)).1
  · exact (h.2 ⟨true, true, 1⟩ "config.get" none rfl rfl (by decide)).1

/-- C1 counterexample: a spawn failure during a subprocess start returns
`StartFailed` but leaves the connection state at `Starting`, not `Error` —
the claim says every failing step ends in `Error`. -/
theorem c1_counterexample :
    BridgeManager.start_subprocess (BridgeManager.with_mode .Subprocess)
        ⟨.error "boom", true, true, ⟨.ok, .line ""⟩⟩
      = (.error (.startFailed "Failed to spawn process: boom"),
         { BridgeManager.with_mode .Subprocess with state := .Starting }, []) ∧
    BridgeState.Starting ≠ BridgeState.Error :=
  ⟨rfl, by decide⟩

/-- C1 amended: every failing step of `start` returns a `StartFailed` error
wrapping the underlying cause, but only a liveness-ping failure tears the
established transport down (kill+wait the child, or disconnect the socket)
and transitions the state to `Error`; failures before the liveness step —
process spawn, pipe-handle acquisition, TCP connect — leave the state at
`Starting` and perform no teardown (a child already spawned when a pipe
handle is missing is neither stored nor killed). -/
theorem c1_amended_start_failure_behavior (m : BridgeManager)
    (hrun : m.state ≠ BridgeState.Running) :
    (∀ (w : SpawnWorld) (emsg : String), w.spawn = .error emsg →
      m.start_subprocess w
        = (.error (.startFailed ("Failed to spawn process: " ++ emsg)),
           { m with state := .Starting }, [])) ∧
    (∀ (w : SpawnWorld) (child : Nat), w.spawn = .ok child → w.stdinOk = false →
      m.start_subprocess w
        = (.error (.startFailed "Failed to get stdin"),
           { m with state := .Starting }, [.spawned])) ∧
    (∀ (w : SpawnWorld) (child : Nat), w.spawn = .ok child → w.stdinOk = true →
      w.stdoutOk = false →
      m.start_subprocess w
        = (.error (.startFailed "Failed to get stdout"),
           { m with state := .Starting }, [.spawned])) ∧
    (m.mode = ConnectionMode.Subprocess →
      ∀ (w : SpawnWorld) (child : Nat) (e : RpcError) (c2 : RpcClient)
        (acts : List Action),
        w.spawn = .ok child → w.stdinOk = true → w.stdoutOk = true →
        RpcClient.call (m.rpc_client.connect) "system.ping" none w.ping
          = (.error e, c2, acts) →
        m.start_subprocess w
          = (.error (.startFailed ("Ping failed: " ++ e.display)),
             { m with state := .Error, rpc_client := c2.disconnect, process := none },
             .spawned :: .pipeConnect ::
               (acts ++ [.pipeDisconnect, .killChild, .waitChild]))) ∧
    (∀ (w : TcpStartWorld) (e : TcpRpcError), w.connect = some e →
      m.start_tcp w
        = (.error (.startFailed ("TCP connection failed: " ++ e.display)),
           { m with state := .Starting }, [])) ∧
    (∀ (w : TcpStartWorld) (e : TcpRpcError) (c3 : TcpRpcClient)
       (acts : List Action),
      w.connect = none →
      TcpRpcClient.ping { m.tcp_client with stream := true, reader := true } w.ping
        = (.error e, c3, acts) →
      m.start_tcp w
        = (.error (.startFailed ("Ping failed: " ++ e.display)),
           { m with state := .Error, tcp_client := c3.disconnect },
           .tcpConnect :: (acts ++ [.tcpDisconnect]))) := by
  refine ⟨?_, ?_, ?_, ?_, ?_, ?_⟩
  · intro w emsg hsp
    obtain ⟨sp, si, so, ping⟩ := w
    dsimp only at hsp
    subst hsp
    unfold BridgeManager.start_subprocess
    rw [if_neg hrun]
  · intro w child hsp hsi
    obtain ⟨sp, si, so, ping⟩ := w
    dsimp only at hsp hsi
    subst hsp; subst hsi
    unfold BridgeManager.start_subprocess
    rw [if_neg hrun]
    rfl
  · intro w child hsp hsi hso
    obtain ⟨sp, si, so, ping⟩ := w
    dsimp only at hsp hsi hso
    subst hsp; subst hsi; subst hso
    unfold BridgeManager.start_subprocess
    rw [if_neg hrun]
    rfl
  · intro hmode w child e c2 acts hsp hsi hso hping
    obtain ⟨sp, si, so, ping⟩ := w
    dsimp only at hsp hsi hso hping
    subst hsp; subst hsi; subst hso
    unfold BridgeManager.start_subprocess
    rw [if_neg hrun]
    dsimp only
    rw [hping]
    dsimp only
    unfold BridgeManager.stop
    dsimp only
    rw [hmode]
    rfl
  · intro w e hconn
    obtain ⟨conn, ping⟩ := w
    dsimp only at hconn
    subst hconn
    unfold BridgeManager.start_tcp
    rw [if_neg hrun]
    rfl
  · intro w e c3 acts hconn hping
    obtain ⟨conn, ping⟩ := w
    dsimp only at hconn hping
    subst hconn
    unfold BridgeManager.start_tcp
    rw [if_neg hrun]
    dsimp only
    unfold TcpRpcClient.connect
    dsimp only
    rw [hping]

/-- Witness for the amended C1: a concrete ping failure (the child answers
garbage) on a `Stopped` subprocess supervisor: `StartFailed` wrapping the
cause, child killed and waited, state `Error`. -/
theorem c1_amended_witness :
    (BridgeManager.with_mode .Subprocess).state ≠ BridgeState.Running ∧
    BridgeManager.start_subprocess (BridgeManager.with_mode .Subprocess)
        ⟨.ok 42, true, true, ⟨.ok, .line "garbage"⟩⟩
      = (.error (.startFailed "Ping failed: JSON error"),
         { BridgeManager.with_mode .Subprocess with
             state := .Error, rpc_client := ⟨false, false, 2⟩, process := none },
         [.spawned, .pipeConnect, .pipeWrite, .pipeRead,
          .pipeDisconnect, .killChild, .waitChild]) := by
  refine ⟨by decide, ?_⟩
  have h := (c1_amended_start_failure_behavior (BridgeManager.with_mode .Subprocess)
      (by decide)).2.2.2.1 rfl ⟨.ok 42, true, true, ⟨.ok, .line "garbage"⟩⟩ 42
      .jsonError ⟨true, true, 2⟩ [.pipeWrite, .pipeRead] rfl rfl rfl rfl
  exact h

/-- C8: encoding a request produces exactly one newline-terminated JSON
line whose `jsonrpc` field is `"2.0"`, and parsing that line back (the
generic JSON stage of `serde_json::from_str`) recovers an object whose
`method`, `params` and `id` fields are exactly the originals — with
`params` read back through serde's `Option` convention (`null` ↦ `None`),
which is faithful because a valid `params` is never the JSON `null`. -/
theorem c8_encode_decode_roundtrip :
    ∀ (method : String) (params : Option Json) (id : Nat),
      id < 2 ^ 64 → params ≠ some Json.null →
      (∃ body, encodeRequest method params id = body ++ ['\n'] ∧ '\n' ∉ body) ∧
      Json.parse ⟨encodeRequest method params id⟩
        = some (.obj [("jsonrpc", .str "2.0"), ("method", .str method),
                      ("params", params.getD .null), ("id", .num (id : Int))]) ∧
      (∀ fields,
        Json.parse ⟨encodeRequest method params id⟩ = some (.obj fields) →
        lookupField fields "jsonrpc" = some (.str "2.0") ∧
        lookupField fields "method" = some (.str method) ∧
        decodeOptValue fields "params" = params ∧
        decodeOptU64 fields "id" = some (some id)) := by
  intro method params id hid hnn
  have hobj : (RpcRequest.new method params id).toJson
      = .obj [("jsonrpc", .str "2.0"), ("method", .str method),
              ("params", params.getD .null), ("id", .num (id : Int))] := rfl
  have hparse : Json.parse ⟨encodeRequest method params id⟩
      = some ((RpcRequest.new method params id).toJson) := by
    unfold encodeRequest
    exact parse_render_line _
  refine ⟨⟨(RpcRequest.new method params id).toJson.render, rfl, render_noNL _⟩,
    by rw [hparse, hobj], ?_⟩
  intro fields hfields
  rw [hparse, hobj] at hfields
  have hf : fields = [("jsonrpc", .str "2.0"), ("method", .str method),
      ("params", params.getD .null), ("id", .num (id : Int))] := by
    injection hfields with h1
    injection h1 with h2
    exact h2.symm
  subst hf
  have hnum : decodeOptU64
      [("jsonrpc", Json.str "2.0"), ("method", .str method),
       ("params", params.getD .null), ("id", .num (id : Int))] "id"
      = some (some id) := by
    have hlook : lookupField
        [("jsonrpc", Json.str "2.0"), ("method", .str method),
         ("params", params.getD .null), ("id", .num (id : Int))] "id"
        = some (.num (id : Int)) := rfl
    unfold decodeOptU64
    simp only [hlook]
    rw [if_pos ⟨by positivity, by exact_mod_cast hid⟩]
    simp
  refine ⟨rfl, rfl, ?_, hnum⟩
  cases params with
  | none => rfl
  | some p =>
      cases p with
      | null => exact absurd rfl hnn
      | bool b => rfl
      | num n => rfl
      | str s => rfl
      | arr items => rfl
      | obj members => rfl

/-- Witness for C8: the liveness request itself, id 1. -/
theorem c8_witness :
    (1 : Nat) < 2 ^ 64 ∧
    (none : Option Json) ≠ some Json.null ∧
    Json.parse ⟨encodeRequest "system.ping" none 1⟩
      = some (.obj [("jsonrpc", .str "2.0"), ("method", .str "system.ping"),
                    ("params", .null), ("id", .num 1)]) :=
  ⟨by decide, by simp,
   (c8_encode_decode_roundtrip "system.ping" none 1 (by decide) (by simp)).2.1⟩

/-- Witness for C9: three consecutive calls on a fresh client allocate ids
1, 2, 3, and disconnect/connect preserve the counter. -/
theorem c9_witness :
    RpcClient.new.request_id + 3 ≤ 2 ^ 64 ∧
    (pipeCallIds RpcClient.new
        [("a", none, ⟨.ok, .line ""⟩), ("b", none, ⟨.ok, .line ""⟩),
         ("c", none, ⟨.ok, .ioError "gone"⟩)]).1 = [1, 2, 3] :=
  ⟨by decide,
   by
    have h := c9_request_ids_consecutive.2.2.2.1 RpcClient.new
      [("a", none, ⟨.ok, .line ""⟩), ("b", none, ⟨.ok, .line ""⟩),
       ("c", none, ⟨.ok, .ioError "gone"⟩)] (by decide)
    rw [h]
    decide⟩

end Devflow
